import Mathlib

/-!
# Gas API client (`gas/client/client.go`) and leveled logger (`x/log.v7`)

A shallow embedding of the envelope handler `Client.request`, of the endpoint
methods built on it, and of the logger contract exercised by
`x/log.v7/logext_test.go`.

* Effects are recorded in a trace of `Event`s (logger calls, the request handed
  to the transport, the deferred close of the body).  A call either returns an
  error value, possibly nil, or panics on the nil logger.
* What lies outside the repository is an input of the embedding, collected in
  `Env`: `json.Marshal`, the JSON scanner, `url.Parse` past its first check, the
  signing transport with the remote service, and the two declarations of the
  repository that are not among the sources, `config.DefaultAPIPrefix` and
  `Ensure`.
* `json.Unmarshal` into `RespBody` is modelled on parsed JSON values: members
  are stored in order, a key selects a field by exact or case-folded match,
  the first type error is kept while decoding goes on, and the `data` member is
  decoded into the struct the caller's pointer refers to.
* Go `int` and `uint` are taken to be 64 bits wide.
-/

namespace Gas

/-! ## Errors -/

/-- Go `error` values that travel through `Client.request`. -/
inductive GoError where
  /-- an error built by `fmt.Errorf` / `errors.New`, identified by its text -/
  | errorString (msg : String)
  /-- an error handed back by a collaborator outside the repository -/
  | lib (origin : String) (msg : String)
  /-- `*json.SyntaxError`: the body is not JSON text -/
  | jsonSyntax
  /-- `*json.UnmarshalTypeError`, with its `Value` description -/
  | unmarshalType (value : String)
  /-- a domain error as `Ensure` produces them: kind, code, message -/
  | domain (kind : String) (code : Int) (message : String)
deriving DecidableEq, Repr

/-! ## JSON values as seen by `encoding/json` -/

/-- A parsed JSON text.  Numbers keep their literal, object members keep their order. -/
inductive JSON where
  | null
  | bool (b : Bool)
  | num (lit : String)
  | str (s : String)
  | arr (items : List JSON)
  | obj (members : List (String × JSON))

/-- Description used in `UnmarshalTypeError.Value` for a JSON value. -/
def JSON.describe : JSON → String
  | .null => "null"
  | .bool _ => "bool"
  | .num _ => "number"
  | .str _ => "string"
  | .arr _ => "array"
  | .obj _ => "object"

/-- The first error wins (`decodeState.saveError`). -/
def saveError (saved new : Option GoError) : Option GoError :=
  match saved with
  | some e => some e
  | none => new

mutual
/-- Error raised while storing a JSON value in an empty `interface{}`: a number
literal that does not convert to `float64` (`convertNumber`). -/
def JSON.convertErr (float64Ok : String → Bool) : JSON → Option GoError
  | .num lit => if float64Ok lit then none else some (GoError.unmarshalType ("number " ++ lit))
  | .arr items => convertErrItems float64Ok items
  | .obj members => convertErrMembers float64Ok members
  | _ => none
/-- Array elements, left to right. -/
def convertErrItems (float64Ok : String → Bool) : List JSON → Option GoError
  | [] => none
  | x :: xs => saveError (x.convertErr float64Ok) (convertErrItems float64Ok xs)
/-- Object members, left to right. -/
def convertErrMembers (float64Ok : String → Bool) : List (String × JSON) → Option GoError
  | [] => none
  | (_, x) :: xs => saveError (x.convertErr float64Ok) (convertErrMembers float64Ok xs)
end

/-! ### Field-name matching -/

/-- Simple case folding of a rune, restricted to what can meet an ASCII field
name: ASCII letters, U+017F (long s) and U+212A (Kelvin sign). -/
def foldRune (c : Char) : Char :=
  if 97 ≤ c.toNat ∧ c.toNat ≤ 122 then Char.ofNat (c.toNat - 32)
  else if c.toNat = 0x17F then 'S'
  else if c.toNat = 0x212A then 'K'
  else c

/-- Folded form of a key. -/
def foldName (s : String) : List Char := s.data.map foldRune

/-- A JSON key selects the struct field tagged `name`: exact match, else match
under case folding. -/
def keyMatches (name key : String) : Bool :=
  key == name || foldName key == foldName name

/-! ### Number literals -/

/-- Value of a non-empty run of decimal digits. -/
def parseDigits (cs : List Char) : Option Nat :=
  if cs = [] then none
  else cs.foldl (fun acc c =>
    match acc with
    | none => none
    | some n => if c.isDigit then some (10 * n + (c.toNat - 48)) else none) (some 0)

/-- `strconv.ParseInt(lit, 10, 64)` without the range check. -/
def parseIntLit (lit : String) : Option Int :=
  match lit.data with
  | '-' :: ds => (parseDigits ds).map (fun (n : Nat) => - (n : Int))
  | '+' :: ds => (parseDigits ds).map (fun (n : Nat) => (n : Int))
  | ds => (parseDigits ds).map (fun (n : Nat) => (n : Int))

/-- `strconv.ParseUint(lit, 10, 64)` without the range check: no sign allowed. -/
def parseUintLit (lit : String) : Option Nat := parseDigits lit.data

/-- Range of `int64` (and of `int` on 64-bit targets). -/
def inInt64 (n : Int) : Bool := decide (-(2 ^ 63 : Int) ≤ n) && decide (n < 2 ^ 63)

/-- Range of `uint` on 64-bit targets. -/
def inUint64 (n : Nat) : Bool := decide (n < 2 ^ 64)

/-! ### Storing a JSON value in a typed field (`literalStore`, `object`, `array`) -/

/-- Store into an `int` / `int64` field. -/
def storeInt (v : JSON) (old : Int) : Int × Option GoError :=
  match v with
  | .null => (old, none)
  | .num lit =>
    match parseIntLit lit with
    | some n => if inInt64 n then (n, none) else (old, some (.unmarshalType ("number " ++ lit)))
    | none => (old, some (.unmarshalType ("number " ++ lit)))
  | .bool _ => (old, some (.unmarshalType "bool"))
  | .str _ => (old, some (.unmarshalType "string"))
  | .arr _ => (old, some (.unmarshalType "array"))
  | .obj _ => (old, some (.unmarshalType "object"))

/-- Store into a `uint` field. -/
def storeUint (v : JSON) (old : Nat) : Nat × Option GoError :=
  match v with
  | .null => (old, none)
  | .num lit =>
    match parseUintLit lit with
    | some n => if inUint64 n then (n, none) else (old, some (.unmarshalType ("number " ++ lit)))
    | none => (old, some (.unmarshalType ("number " ++ lit)))
  | .bool _ => (old, some (.unmarshalType "bool"))
  | .str _ => (old, some (.unmarshalType "string"))
  | .arr _ => (old, some (.unmarshalType "array"))
  | .obj _ => (old, some (.unmarshalType "object"))

/-- Store into a `string` field. -/
def storeString (v : JSON) (old : String) : String × Option GoError :=
  match v with
  | .null => (old, none)
  | .str s => (s, none)
  | .num _ => (old, some (.unmarshalType "number"))
  | .bool _ => (old, some (.unmarshalType "bool"))
  | .arr _ => (old, some (.unmarshalType "array"))
  | .obj _ => (old, some (.unmarshalType "object"))

/-- Store into a `bool` field. -/
def storeBool (v : JSON) (old : Bool) : Bool × Option GoError :=
  match v with
  | .null => (old, none)
  | .bool b => (b, none)
  | .num _ => (old, some (.unmarshalType "number"))
  | .str _ => (old, some (.unmarshalType "string"))
  | .arr _ => (old, some (.unmarshalType "array"))
  | .obj _ => (old, some (.unmarshalType "object"))

/-- How `encoding/json` fills a struct of type `α`: the effect of one object
member on the struct, and the error it saves, if any. -/
structure Decoder (α : Type) where
  setField : α → String → JSON → α × Option GoError

/-- Decode the members of a JSON object into a struct, in order; the first
error is kept and decoding goes on. -/
def Decoder.decodeObject {α : Type} (dec : Decoder α) (members : List (String × JSON))
    (d : α) : α × Option GoError :=
  members.foldl
    (fun acc kv => ((dec.setField acc.1 kv.1 kv.2).1, saveError acc.2 (dec.setField acc.1 kv.1 kv.2).2))
    (d, none)

/-! ## Data model of the client -/

/-- Configuration of package `config`: credentials, miner identity, API prefix. -/
structure Config where
  AccessKey : String
  SecretKey : String
  MinerID : String
  APIPrefix : String
deriving DecidableEq, Repr

/-- A value of the `logger.Logger` interface; calls on it are recorded in the trace. -/
structure Logger where
  id : Nat
deriving DecidableEq, Repr

/-- The API client.  `timeout` is `client.Timeout` of the underlying HTTP client,
in nanoseconds; `logger` is `none` for the nil interface. -/
structure Client where
  config : Config
  timeout : Nat
  logger : Option Logger
deriving DecidableEq, Repr

/-- `NewClient`: wraps the configuration and a signing HTTP client with a ten
second timeout.  The logger field is not assigned. -/
def NewClient (config : Config) : Client :=
  { config := config, timeout := 10 * 1000000000, logger := none }

/-- `SetLogger`. -/
def Client.SetLogger (c : Client) (logger : Logger) : Client :=
  { c with logger := some logger }

/-- Body of `UpdateAction` (JSON tags `mid`, `sno`, `act`, `actStat`). -/
structure updateActionReqBody where
  MinerID : String
  SealingID : String
  ActionName : String
  ActionStatus : String
deriving DecidableEq, Repr

/-- Body of `CancelSealing` (JSON tags `mid`, `sno`). -/
structure cancelReqBody where
  MinerID : String
  SealingID : String
deriving DecidableEq, Repr

/-- A `float32`, kept as its bit pattern; no arithmetic is done on it. -/
structure Float32Bits where
  bits : Nat
deriving DecidableEq, Repr

/-- User level configuration (JSON tags `mbf`, `mpm`, `snp`, `mit`, `mids`);
`MinerIDs` is `none` for the nil slice. -/
structure UserConfig where
  MaxBaseFee : Float32Bits := ⟨0⟩
  MaxPreCommitMsg : Int := 0
  SealNumberPer24h : Int := 0
  MaxIntervalTime : Int := 0
  MinerIDs : Option (List String) := none
deriving DecidableEq, Repr

/-- A sealing entry as returned by the service. -/
structure SealingData where
  MinerID : String := ""
  SealingID : String := ""
  PSSStartTime : Int := 0
  PSSWWaitTime : Int := 0
  PreCSStartTime : Int := 0
  WSTime : Int := 0
  CStartTime : Int := 0
  CWTime : Int := 0
  ProCSStartTime : Int := 0
  ProCSEndTime : Int := 0
  SealingStatus : Int := 0
  CancelTime : Int := 0
  CreateTime : Int := 0
deriving DecidableEq, Repr

/-- Result of `CheckAction`. -/
structure CheckActionData where
  Ok : Bool := false
  Wait : Nat := 0
deriving DecidableEq, Repr

/-- The values passed as `reqData interface{}` by the endpoint methods. -/
inductive ReqData where
  | nil
  | updateAction (b : updateActionReqBody)
  | cancel (b : cancelReqBody)
  | userConfig (u : Option UserConfig)
deriving DecidableEq, Repr

/-- The JSON members of a request payload, from the struct tags: key and the Go
field it carries.  Strings only; `UserConfig` payloads are left to the codec. -/
def ReqData.stringMembers : ReqData → List (String × String)
  | .updateAction b =>
    [("mid", b.MinerID), ("sno", b.SealingID), ("act", b.ActionName), ("actStat", b.ActionStatus)]
  | .cancel b => [("mid", b.MinerID), ("sno", b.SealingID)]
  | _ => []

/-! ## HTTP collaborators -/

/-- A parsed URL, known here by its rendering `URL.String()`. -/
structure URL where
  text : String
deriving DecidableEq, Repr

/-- The parts of `http.Request` that `request` touches. -/
structure Request where
  Method : String
  URL : URL
  Header : List (String × String)
  Body : String
deriving DecidableEq, Repr

/-- `Header.Set`: the key then holds the single given value. -/
def headerSet (h : List (String × String)) (key value : String) : List (String × String) :=
  (h.filter (fun kv => kv.1 != key)) ++ [(key, value)]

/-- `Header.Get`: first value of the key, or the empty string. -/
def headerGet (h : List (String × String)) (key : String) : String :=
  match h.find? (fun kv => kv.1 == key) with
  | some kv => kv.2
  | none => ""

/-- The parts of `http.Response` that `request` touches; `Body` is the outcome of
`ioutil.ReadAll(resp.Body)`. -/
structure Response where
  Status : String
  StatusCode : Int
  Body : Except GoError String

/-- Everything outside the repository that `request` relies on. -/
structure Env where
  /-- the constant `config.DefaultAPIPrefix` -/
  DefaultAPIPrefix : String
  /-- the function `Ensure` of package `client` (its file is not among the
  sources): the error a response code and message stand for, nil on success -/
  Ensure : Int → String → Option GoError
  /-- `json.Marshal` on a request payload -/
  Marshal : ReqData → Except GoError String
  /-- `url.Parse` once the control-character check has passed -/
  urlParseRest : String → Except GoError URL
  /-- `c.client.Do`: the signing transport and the remote service -/
  Do : Request → Except GoError Response
  /-- the JSON scanner: `none` when the text is not valid JSON -/
  parseJSON : String → Option JSON
  /-- does `strconv.ParseFloat(lit, 64)` succeed -/
  float64Ok : String → Bool
  /-- effect of one object member on a `UserConfig` (float and slice fields) -/
  setUserConfigField : UserConfig → String → JSON → UserConfig × Option GoError

/-- `httpguts.IsTokenRune`: the characters allowed in an HTTP method. -/
def isTokenRune (c : Char) : Bool :=
  c.isAlphanum || [33, 35, 36, 37, 38, 39, 42, 43, 45, 46, 94, 95, 96, 124, 126].contains c.toNat

/-- `validMethod` of `net/http`. -/
def validMethod (method : String) : Bool :=
  !method.data.isEmpty && method.data.all isTokenRune

/-- `stringContainsCTLByte` of `net/url`. -/
def stringContainsCTLByte (s : List Char) : Bool :=
  s.any (fun c => decide (c.toNat < 32) || decide (c.toNat = 127))

/-- `url.Parse`: the fragment is cut off, the rest is refused when it holds an
ASCII control character, and otherwise parsed by the library. -/
def urlParse (env : Env) (rawURL : String) : Except GoError URL :=
  if stringContainsCTLByte (rawURL.data.takeWhile (fun c => c != '#')) then
    .error (GoError.lib "net/url" "invalid control character in URL")
  else env.urlParseRest rawURL

/-- `http.NewRequest(method, url, body)`. -/
def NewRequest (env : Env) (method url body : String) : Except GoError Request :=
  let method := if method = "" then "GET" else method
  if !validMethod method then .error (GoError.lib "net/http" ("invalid method " ++ method))
  else
    match urlParse env url with
    | .error err => .error err
    | .ok u => .ok { Method := method, URL := u, Header := [], Body := body }

/-! ## Decoding into the destination structs -/

/-- One object member decoded into a `SealingData`, by JSON tag. -/
def SealingData.setField (d : SealingData) (key : String) (v : JSON) :
    SealingData × Option GoError :=
  if keyMatches "Miner_ID" key then ({ d with MinerID := (storeString v d.MinerID).1 }, (storeString v d.MinerID).2)
  else if keyMatches "Sealing_ID" key then ({ d with SealingID := (storeString v d.SealingID).1 }, (storeString v d.SealingID).2)
  else if keyMatches "PSS_StartTime" key then ({ d with PSSStartTime := (storeInt v d.PSSStartTime).1 }, (storeInt v d.PSSStartTime).2)
  else if keyMatches "PSSW_WaitTime" key then ({ d with PSSWWaitTime := (storeInt v d.PSSWWaitTime).1 }, (storeInt v d.PSSWWaitTime).2)
  else if keyMatches "PreCS_StartTime" key then ({ d with PreCSStartTime := (storeInt v d.PreCSStartTime).1 }, (storeInt v d.PreCSStartTime).2)
  else if keyMatches "WS_Time" key then ({ d with WSTime := (storeInt v d.WSTime).1 }, (storeInt v d.WSTime).2)
  else if keyMatches "C_StartTime" key then ({ d with CStartTime := (storeInt v d.CStartTime).1 }, (storeInt v d.CStartTime).2)
  else if keyMatches "CW_Time" key then ({ d with CWTime := (storeInt v d.CWTime).1 }, (storeInt v d.CWTime).2)
  else if keyMatches "ProCS_StartTime" key then ({ d with ProCSStartTime := (storeInt v d.ProCSStartTime).1 }, (storeInt v d.ProCSStartTime).2)
  else if keyMatches "ProCS_EndTime" key then ({ d with ProCSEndTime := (storeInt v d.ProCSEndTime).1 }, (storeInt v d.ProCSEndTime).2)
  else if keyMatches "Sealing_Status" key then ({ d with SealingStatus := (storeInt v d.SealingStatus).1 }, (storeInt v d.SealingStatus).2)
  else if keyMatches "Cancel_Time" key then ({ d with CancelTime := (storeInt v d.CancelTime).1 }, (storeInt v d.CancelTime).2)
  else if keyMatches "Create_Time" key then ({ d with CreateTime := (storeInt v d.CreateTime).1 }, (storeInt v d.CreateTime).2)
  else (d, none)

/-- Decoder of `*SealingData`. -/
def sealingDecoder : Decoder SealingData := ⟨SealingData.setField⟩

/-- One object member decoded into a `CheckActionData`, by JSON tag. -/
def CheckActionData.setField (d : CheckActionData) (key : String) (v : JSON) :
    CheckActionData × Option GoError :=
  if keyMatches "ok" key then ({ d with Ok := (storeBool v d.Ok).1 }, (storeBool v d.Ok).2)
  else if keyMatches "wait" key then ({ d with Wait := (storeUint v d.Wait).1 }, (storeUint v d.Wait).2)
  else (d, none)

/-- Decoder of `*CheckActionData`. -/
def checkActionDecoder : Decoder CheckActionData := ⟨CheckActionData.setField⟩

/-- Decoder of `*UserConfig`; its float and slice fields are decoded by the library. -/
def userConfigDecoder (env : Env) : Decoder UserConfig := ⟨env.setUserConfigField⟩

/-- Destination type of the calls that pass `nil` as `respData`. -/
abbrev NoData := Unit

/-- Decoder for `NoData`; never used, since no destination is supplied. -/
def noDecoder : Decoder NoData := ⟨fun d _ _ => (d, none)⟩

/-! ## The response envelope -/

/-- The `Data interface{}` field of `RespBody` during decoding. -/
inductive DataSlot where
  /-- the nil interface -/
  | nil
  /-- the destination pointer supplied by the caller -/
  | ptr
  /-- a value built by the decoder itself (map, slice, float64, string, bool) -/
  | val (v : JSON)

/-- `RespBody`: the standard format of every response body. -/
structure RespBody where
  Code : Int
  Message : String
  Data : DataSlot

/-- State of `json.Unmarshal(bodyBytes, respBody)`: the envelope, the struct the
caller's pointer refers to (when one was supplied), the saved error. -/
structure DecodeState (α : Type) where
  body : RespBody
  dest : Option α
  err : Option GoError

/-- Store the value of the member `data`.  `null` resets the interface to nil and
leaves the pointed-to struct alone; with the caller's pointer in the slot an
object is decoded into the struct and any other value is a type error; with an
empty slot the value is kept in generic form. -/
def storeData {α : Type} (env : Env) (dec : Decoder α) (v : JSON) (st : DecodeState α) :
    DecodeState α :=
  match v with
  | .null => { st with body := { st.body with Data := .nil } }
  | _ =>
    match st.body.Data, st.dest with
    | .ptr, some d =>
      match v with
      | .obj members =>
        { st with dest := some (dec.decodeObject members d).1,
                  err := saveError st.err (dec.decodeObject members d).2 }
      | _ => { st with err := saveError st.err (some (.unmarshalType v.describe)) }
    | _, _ =>
      { st with body := { st.body with Data := .val v },
                err := saveError st.err (v.convertErr env.float64Ok) }

/-- One member of the envelope object decoded into `RespBody` (tags `code`,
`message`, `data`); unknown keys are skipped. -/
def storeEnvelopeMember {α : Type} (env : Env) (dec : Decoder α) (st : DecodeState α)
    (kv : String × JSON) : DecodeState α :=
  if keyMatches "code" kv.1 then
    { st with body := { st.body with Code := (storeInt kv.2 st.body.Code).1 },
              err := saveError st.err (storeInt kv.2 st.body.Code).2 }
  else if keyMatches "message" kv.1 then
    { st with body := { st.body with Message := (storeString kv.2 st.body.Message).1 },
              err := saveError st.err (storeString kv.2 st.body.Message).2 }
  else if keyMatches "data" kv.1 then storeData env dec kv.2 st
  else st

/-- `json.Unmarshal(bodyBytes, respBody)`: invalid text is refused before
anything is stored; `null` stores nothing; an object is decoded member by
member; any other value is a type error. -/
def Unmarshal {α : Type} (env : Env) (dec : Decoder α) (bodyBytes : String)
    (st : DecodeState α) : DecodeState α :=
  match env.parseJSON bodyBytes with
  | none => { st with err := some .jsonSyntax }
  | some .null => st
  | some (.obj members) => members.foldl (storeEnvelopeMember env dec) st
  | some v => { st with err := some (.unmarshalType v.describe) }

/-! ## `Client.request` -/

/-- What a call does to the outside, in order. -/
inductive Event where
  /-- `c.logger.Error(msg, err)` -/
  | logError (msg : String) (err : GoError)
  /-- `c.logger.Debug(msg)` -/
  | logDebug (msg : String)
  /-- `c.client.Do(req)` -/
  | httpDo (req : Request)
  /-- the deferred `resp.Body.Close()` -/
  | bodyClose
deriving DecidableEq, Repr

/-- How a call ends: with a nil-pointer panic, or by returning `err`. -/
inductive Outcome where
  | panicked
  | returned (err : Option GoError)
deriving DecidableEq, Repr

/-- A finished call: its effects, the struct behind `respData` afterwards, and
how it ended. -/
structure Run (α : Type) where
  trace : List Event
  respData : Option α
  outcome : Outcome

/-- The error branches before the transport is reached: `c.logger.Error(msg, err)`,
then `return`.  The call panics when the logger is the nil interface. -/
def logErrorReturn {α : Type} (c : Client) (msg : String) (err : GoError)
    (respData : Option α) : Run α :=
  match c.logger with
  | none => { trace := [], respData := respData, outcome := .panicked }
  | some _ => { trace := [.logError msg err], respData := respData, outcome := .returned (some err) }

/-- `Client.request`. -/
def Client.request {α : Type} (env : Env) (c : Client) (method path : String)
    (reqData : ReqData) (dec : Decoder α) (respData : Option α) : Run α :=
  match env.Marshal reqData with
  | .error err => logErrorReturn c "json.Marshal() failed: " err respData
  | .ok jsonText =>
    let apiPrefix := if c.config.APIPrefix = "" then env.DefaultAPIPrefix else c.config.APIPrefix
    match NewRequest env method (apiPrefix ++ path) jsonText with
    | .error err => logErrorReturn c "http.NewRequest() failed: " err respData
    | .ok req0 =>
      match c.logger with
      | none => { trace := [], respData := respData, outcome := .panicked }
      | some _ =>
        let t1 := [Event.logDebug (req0.Method ++ " " ++ req0.URL.text ++ " " ++ jsonText)]
        let req := { req0 with Header := headerSet req0.Header "Content-Type" "application/json" }
        let t2 := t1 ++ [Event.httpDo req]
        match env.Do req with
        | .error err =>
          { trace := t2 ++ [.logError "c.client.Do() failed: " err],
            respData := respData, outcome := .returned (some err) }
        | .ok resp =>
          match resp.Body with
          | .error err =>
            { trace := t2 ++ [.logError "ioutil.ReadAll() failed: " err, .bodyClose],
              respData := respData, outcome := .returned (some err) }
          | .ok bodyBytes =>
            let t3 := t2 ++ [Event.logDebug (resp.Status ++ " " ++ bodyBytes)]
            if resp.StatusCode ≠ 200 then
              let err := GoError.errorString ("Status not ok: " ++ toString resp.StatusCode)
              { trace := t3 ++ [.logError "check resp.StatusCode failed: " err, .bodyClose],
                respData := respData, outcome := .returned (some err) }
            else
              let respBody : RespBody :=
                { Code := 0, Message := "", Data := if respData.isSome then .ptr else .nil }
              let st := Unmarshal env dec bodyBytes { body := respBody, dest := respData, err := none }
              match st.err with
              | some err =>
                { trace := t3 ++ [.logError "json.Unmarshal() failed: " err, .bodyClose],
                  respData := st.dest, outcome := .returned (some err) }
              | none =>
                { trace := t3 ++ [.bodyClose], respData := st.dest,
                  outcome := .returned (env.Ensure st.body.Code st.body.Message) }

/-! ## Endpoint methods -/

/-- `strconv.FormatInt(t, 10)`. -/
def FormatInt (t : Int) : String :=
  if t < 0 then "-" ++ Nat.repr t.natAbs else Nat.repr t.natAbs

/-- `UpdateAction`: report the status of an action. -/
def Client.UpdateAction (env : Env) (c : Client) (sealingID action actionStatus : String) :
    Run NoData :=
  c.request env "POST" "/v1/sector/action"
    (.updateAction { MinerID := c.config.MinerID, SealingID := sealingID,
                     ActionName := action, ActionStatus := actionStatus })
    noDecoder none

/-- `GetSealing`: fetch the entry of `sealingID` into a fresh `SealingData`. -/
def Client.GetSealing (env : Env) (c : Client) (sealingID : String) : Run SealingData :=
  c.request env "GET" ("/v1/sector/" ++ c.config.MinerID ++ "/" ++ sealingID)
    .nil sealingDecoder (some {})

/-- `CancelSealing`: mark `sealingID` as cancelled. -/
def Client.CancelSealing (env : Env) (c : Client) (sealingID : String) : Run NoData :=
  c.request env "POST" "/v1/sector/cancel"
    (.cancel { MinerID := c.config.MinerID, SealingID := sealingID })
    noDecoder none

/-- The path built by `CheckAction`. -/
def checkActionPath (c : Client) (sealingID action : String) (t : Option Int) : String :=
  let path := "/v1/sector/check/" ++ c.config.MinerID ++ "/" ++ sealingID ++ "/" ++ action
  match t with
  | some v => path ++ "?time=" ++ FormatInt v
  | none => path

/-- `CheckAction`: ask whether an action may run; `t` is the optional timestamp. -/
def Client.CheckAction (env : Env) (c : Client) (sealingID action : String) (t : Option Int) :
    Run CheckActionData :=
  c.request env "GET" (checkActionPath c sealingID action t) .nil checkActionDecoder (some {})

/-- `GetUserConfig`. -/
def Client.GetUserConfig (env : Env) (c : Client) : Run UserConfig :=
  c.request env "GET" "/v1/gas/config" .nil (userConfigDecoder env) (some {})

/-- `SetUserConfig`; the argument is a pointer and may be nil. -/
def Client.SetUserConfig (env : Env) (c : Client) (userConfig : Option UserConfig) :
    Run NoData :=
  c.request env "POST" "/v1/gas/config" (.userConfig userConfig) noDecoder none

/-! ## The leveled logger of `x/log.v7` -/

/-- Modelled from the spec: the output levels of the logger of `x/log.v7`, whose
source is absent (only `logext_test.go` is at hand), in the order
debug < info < warn < error. -/
inductive Log.Level where
  | Ldebug
  | Linfo
  | Lwarn
  | Lerror
deriving DecidableEq, Repr

/-- Modelled from the spec: position of a level in the order debug < info < warn < error
(the logger source is absent). -/
def Log.Level.rank : Log.Level → Nat
  | .Ldebug => 0
  | .Linfo => 1
  | .Lwarn => 2
  | .Lerror => 3

/-- Modelled from the spec: the level tag printed between brackets (the logger
source is absent; `[INFO]` and `[WARN]` are the tags the tests expect). -/
def Log.Level.tag : Log.Level → String
  | .Ldebug => "DEBUG"
  | .Linfo => "INFO"
  | .Lwarn => "WARN"
  | .Lerror => "ERROR"

/-- Modelled from the spec: the clock reading a log line is stamped with (the
logger source is absent): calendar date, time of day, microseconds. -/
structure Log.Time where
  year : Nat
  month : Nat
  day : Nat
  hour : Nat
  minute : Nat
  second : Nat
  micro : Nat
deriving DecidableEq, Repr

/-- Modelled from the spec: the last `width` decimal digits of `n`, zero padded
(the fields of `YYYY/MM/DD HH:MM:SS.ffffff`; the logger source is absent). -/
def Log.pad : Nat → Nat → List Char
  | 0, _ => []
  | width + 1, n => Log.pad width (n / 10) ++ [Nat.digitChar (n % 10)]

/-- Modelled from the spec: the timestamp `YYYY/MM/DD HH:MM:SS.ffffff` (the
logger source is absent). -/
def Log.Time.render (t : Log.Time) : List Char :=
  Log.pad 4 t.year ++ ['/'] ++ Log.pad 2 t.month ++ ['/'] ++ Log.pad 2 t.day ++ [' '] ++
    Log.pad 2 t.hour ++ [':'] ++ Log.pad 2 t.minute ++ [':'] ++ Log.pad 2 t.second ++ ['.'] ++
    Log.pad 6 t.micro

/-- Modelled from the spec: the call site of an emission, `<path>:<line>` (the
logger source is absent). -/
structure Log.CallSite where
  path : String
  line : Nat
deriving DecidableEq, Repr

/-- Modelled from the spec: a logger with a settable minimum output level and a
destination stream, here the text written so far (the logger source is absent). -/
structure Log.Logger where
  Level : Log.Level
  out : List Char
deriving DecidableEq, Repr

/-- Modelled from the spec: `New` yields a logger at level info writing to the
given stream, as `TestLog_Time` asserts (the logger source is absent). -/
def Log.New (out : List Char) : Log.Logger := { Level := .Linfo, out := out }

/-- Modelled from the spec: `SetOutputLevel` (the logger source is absent). -/
def Log.Logger.SetOutputLevel (l : Log.Logger) (lvl : Log.Level) : Log.Logger :=
  { l with Level := lvl }

/-- Modelled from the spec: the text after the timestamp of a log line,
` [LEVEL] <path>:<line>: <message>` and a line feed (the logger source is absent). -/
def Log.lineTail (lvl : Log.Level) (site : Log.CallSite) (msg : String) : List Char :=
  (" [" ++ lvl.tag ++ "] " ++ site.path ++ ":" ++ Nat.repr site.line ++ ": " ++ msg ++ "\n").data

/-- Modelled from the spec: an emission at level `lvl` (`Debug`, `Info`, `Warn`,
`Error`): nothing below the minimum output level, otherwise one line appended to
the stream: timestamp, level tag, call site, message (the logger source is absent). -/
def Log.Logger.emit (l : Log.Logger) (lvl : Log.Level) (now : Log.Time) (site : Log.CallSite)
    (msg : String) : Log.Logger :=
  if lvl.rank < l.Level.rank then l
  else { l with out := l.out ++ now.render ++ Log.lineTail lvl site msg }

/-- Modelled from the spec: `Debug`, an emission at level debug (the logger
source is absent). -/
def Log.Logger.Debug (l : Log.Logger) (now : Log.Time) (site : Log.CallSite) (msg : String) :
    Log.Logger :=
  l.emit .Ldebug now site msg

/-- Modelled from the spec: `Info`, an emission at level info (the logger source
is absent). -/
def Log.Logger.Info (l : Log.Logger) (now : Log.Time) (site : Log.CallSite) (msg : String) :
    Log.Logger :=
  l.emit .Linfo now site msg

/-- Modelled from the spec: `Warn`, an emission at level warn (the logger source
is absent). -/
def Log.Logger.Warn (l : Log.Logger) (now : Log.Time) (site : Log.CallSite) (msg : String) :
    Log.Logger :=
  l.emit .Lwarn now site msg

/-- Modelled from the spec: `Error`, an emission at level error (the logger
source is absent). -/
def Log.Logger.Error (l : Log.Logger) (now : Log.Time) (site : Log.CallSite) (msg : String) :
    Log.Logger :=
  l.emit .Lerror now site msg

/-- Modelled from the spec: does the text have the shape `dddd/dd/dd dd:dd:dd.dddddd`
(the pattern `TestLog_Time` matches the first 26 characters against). -/
def Log.isTimestamp (cs : List Char) : Bool :=
  match cs with
  | [y1, y2, y3, y4, s1, m1, m2, s2, d1, d2, s3, h1, h2, s4, n1, n2, s5, c1, c2, s6,
     f1, f2, f3, f4, f5, f6] =>
    [y1, y2, y3, y4, m1, m2, d1, d2, h1, h2, n1, n2, c1, c2, f1, f2, f3, f4, f5, f6].all
        Char.isDigit &&
      s1 == '/' && s2 == '/' && s3 == ' ' && s4 == ':' && s5 == ':' && s6 == '.'
  | _ => false

/-! ## Notions used in the statements -/

/-- The API prefix in force: the configured one, or the default when it is empty. -/
def Client.apiPrefixInForce (env : Env) (c : Client) : String :=
  if c.config.APIPrefix = "" then env.DefaultAPIPrefix else c.config.APIPrefix

/-- The request handed to the transport: the constructed one with its content type set. -/
def withContentType (req0 : Request) : Request :=
  { req0 with Header := headerSet req0.Header "Content-Type" "application/json" }

/-- The two events every call that reaches the transport starts with. -/
def sendEvents (req0 : Request) (text : String) : List Event :=
  [Event.logDebug (req0.Method ++ " " ++ req0.URL.text ++ " " ++ text),
   Event.httpDo (withContentType req0)]

/-- The members of an envelope in the order of the `RespBody` fields: `code`
with a number literal, `message` with a string, and `data` when present. -/
def envelopeMembers (lit message : String) (data : Option JSON) : List (String × JSON) :=
  [("code", JSON.num lit), ("message", JSON.str message)] ++
    (match data with
     | some v => [("data", v)]
     | none => [])

/-- A well-formed envelope: a JSON object holding, in any order, exactly one
`code` member whose literal reads as the integer `code`, one `message` member
holding a string, and at most one `data` member. -/
def WellFormedEnvelope (doc : JSON) (code : Int) (message : String) (data : Option JSON) : Prop :=
  ∃ members lit, doc = JSON.obj members ∧ members.Perm (envelopeMembers lit message data) ∧
    parseIntLit lit = some code ∧ inInt64 code = true

/-- What decoding the `data` member does to the struct behind `respData`, and
the error it raises: nothing when the member is absent or `null`; an object is
decoded into a supplied struct, any other value is refused for it; without a
destination the value only has to convert to generic form. -/
def decodeData {α : Type} (env : Env) (dec : Decoder α) (data : Option JSON)
    (respData : Option α) : Option α × Option GoError :=
  match data, respData with
  | none, _ => (respData, none)
  | some .null, _ => (respData, none)
  | some (.obj members), some d => (some (dec.decodeObject members d).1, (dec.decodeObject members d).2)
  | some v, some d => (some d, some (.unmarshalType v.describe))
  | some v, none => (none, v.convertErr env.float64Ok)

/-- The requests handed to the transport during a call, in order. -/
def sentRequests (tr : List Event) : List Request :=
  tr.filterMap (fun ev =>
    match ev with
    | .httpDo req => some req
    | _ => none)

/-- The messages of the `Error` diagnostics in `request`, one per failing step. -/
def errorDiagnostics : List String :=
  ["json.Marshal() failed: ", "http.NewRequest() failed: ", "c.client.Do() failed: ",
   "ioutil.ReadAll() failed: ", "check resp.StatusCode failed: ", "json.Unmarshal() failed: "]

/-- Is the event a call of the logger method `Error`. -/
def Event.isErrorCall : Event → Bool
  | .logError _ _ => true
  | _ => false

/-- The zero value of `SealingData`, field by field. -/
def zeroSealingData : SealingData :=
  { MinerID := "", SealingID := "", PSSStartTime := 0, PSSWWaitTime := 0, PreCSStartTime := 0,
    WSTime := 0, CStartTime := 0, CWTime := 0, ProCSStartTime := 0, ProCSEndTime := 0,
    SealingStatus := 0, CancelTime := 0, CreateTime := 0 }

/-! ## A concrete environment for worked examples -/

/-- Modelled from the spec: an `Ensure` (the function is absent from the sources)
with `0` as the success code and every other code mapped to an error kind
through a fixed table. -/
def demoEnsure (code : Int) (message : String) : Option GoError :=
  if code = 0 then none
  else some (GoError.domain (if code = 1 then "busy" else "unknown") code message)

/-- An environment in which every collaborator succeeds: the payload serialises
to `text`, every URL free of control characters parses, the transport answers
every request with `resp`, and the scanner reads the body of `resp` as `doc`. -/
def demoEnv (text : String) (resp : Response) (doc : Option JSON) : Env :=
  { DefaultAPIPrefix := "https://gas.example.org",
    Ensure := demoEnsure,
    Marshal := fun _ => .ok text,
    urlParseRest := fun u => .ok ⟨u⟩,
    Do := fun _ => .ok resp,
    parseJSON := fun s =>
      match resp.Body with
      | .ok b => if s = b then doc else none
      | .error _ => none,
    float64Ok := fun _ => true,
    setUserConfigField := fun d _ _ => (d, none) }

/-- A response whose body was read in full. -/
def demoResponse (status : String) (code : Int) (body : String) : Response :=
  { Status := status, StatusCode := code, Body := .ok body }

/-- Text of the envelope `{"code":0,"message":"","data":{"Sealing_ID":"sector-1","Sealing_Status":2}}`. -/
def sealingBodyText : String :=
  "\x7b\"code\":0,\"message\":\"\",\"data\":\x7b\"Sealing_ID\":\"sector-1\",\"Sealing_Status\":2\x7d\x7d"

/-- The envelope of `sealingBodyText` as the scanner reads it. -/
def sealingBodyDoc : JSON :=
  .obj [("code", .num "0"), ("message", .str ""),
        ("data", .obj [("Sealing_ID", .str "sector-1"), ("Sealing_Status", .num "2")])]

/-- Text of the envelope `{"code":1,"message":"busy","data":{"Sealing_ID":"sector-1"}}`. -/
def busyBodyText : String :=
  "\x7b\"code\":1,\"message\":\"busy\",\"data\":\x7b\"Sealing_ID\":\"sector-1\"\x7d\x7d"

/-- The envelope of `busyBodyText` as the scanner reads it. -/
def busyBodyDoc : JSON :=
  .obj [("code", .num "1"), ("message", .str "busy"),
        ("data", .obj [("Sealing_ID", .str "sector-1")])]

/-- The service answers 200 with the success envelope of `sealingBodyText`. -/
def sealingEnv : Env :=
  demoEnv "null" (demoResponse "200 OK" 200 sealingBodyText) (some sealingBodyDoc)

/-- The service answers 200 with the domain-error envelope of `busyBodyText`. -/
def busyEnv : Env :=
  demoEnv "null" (demoResponse "200 OK" 200 busyBodyText) (some busyBodyDoc)

/-- The service answers 500 with the success envelope of `sealingBodyText`. -/
def failingEnv : Env :=
  demoEnv "null" (demoResponse "500 Internal Server Error" 500 sealingBodyText)
    (some sealingBodyDoc)

/-- A configuration with an empty API prefix, so that the default applies. -/
def demoConfig : Config :=
  { AccessKey := "ak", SecretKey := "sk", MinerID := "f01234", APIPrefix := "" }

/-- A client with a logger set. -/
def demoClient : Client := (NewClient demoConfig).SetLogger ⟨1⟩

/-- The request `GetSealing "sector-1"` hands to the transport for `demoClient`. -/
def demoSealingRequest : Request :=
  { Method := "GET", URL := ⟨"https://gas.example.org/v1/sector/f01234/sector-1"⟩,
    Header := [("Content-Type", "application/json")], Body := "null" }

/-- The record the envelope of `sealingBodyText` describes. -/
def sector1Record : SealingData :=
  { zeroSealingData with SealingID := "sector-1", SealingStatus := 2 }

/-! ## Theorems -/

/-! ### Paths of `request` -/

theorem request_nil_logger {α : Type} (env : Env) (c : Client) (method path : String)
    (reqData : ReqData) (dec : Decoder α) (respData : Option α) (h : c.logger = none) :
    c.request env method path reqData dec respData
      = { trace := [], respData := respData, outcome := .panicked } := by
  unfold Client.request logErrorReturn
  simp only [h]
  split
  · rfl
  · split <;> rfl

theorem request_httpDo_inv {α : Type} (env : Env) (c : Client) (method path : String)
    (reqData : ReqData) (dec : Decoder α) (respData : Option α) (req : Request)
    (h : Event.httpDo req ∈ (c.request env method path reqData dec respData).trace) :
    ∃ lg text req0, c.logger = some lg ∧ env.Marshal reqData = .ok text ∧
      NewRequest env method (c.apiPrefixInForce env ++ path) text = .ok req0 ∧
      req = { req0 with Header := headerSet req0.Header "Content-Type" "application/json" } := by
  unfold Client.request logErrorReturn at h
  unfold Client.apiPrefixInForce
  split at h
  · split at h <;> simp at h
  · rename_i text hM
    simp only at h
    split at h
    · split at h <;> simp at h
    · rename_i req0 hN
      split at h
      · simp at h
      · rename_i lg hl
        refine ⟨lg, text, req0, hl, hM, hN, ?_⟩
        split at h
        · simpa using h
        · split at h
          · simpa using h
          · split at h
            · simpa using h
            · split at h <;> simpa using h

theorem request_read_fail {α : Type} (env : Env) (c : Client) (method path : String)
    (reqData : ReqData) (dec : Decoder α) (respData : Option α)
    (lg : Logger) (text : String) (req0 : Request) (resp : Response) (err : GoError)
    (hl : c.logger = some lg) (hM : env.Marshal reqData = .ok text)
    (hN : NewRequest env method (c.apiPrefixInForce env ++ path) text = .ok req0)
    (hD : env.Do (withContentType req0) = .ok resp) (hB : resp.Body = .error err) :
    c.request env method path reqData dec respData
      = { trace := sendEvents req0 text ++
            [.logError "ioutil.ReadAll() failed: " err, .bodyClose],
          respData := respData, outcome := .returned (some err) } := by
  unfold Client.apiPrefixInForce at hN
  unfold withContentType at hD
  simp [Client.request, hl, hM, hN, hD, hB, sendEvents, withContentType]

theorem request_status_fail {α : Type} (env : Env) (c : Client) (method path : String)
    (reqData : ReqData) (dec : Decoder α) (respData : Option α)
    (lg : Logger) (text : String) (req0 : Request) (resp : Response) (body : String)
    (hl : c.logger = some lg) (hM : env.Marshal reqData = .ok text)
    (hN : NewRequest env method (c.apiPrefixInForce env ++ path) text = .ok req0)
    (hD : env.Do (withContentType req0) = .ok resp) (hB : resp.Body = .ok body)
    (hS : resp.StatusCode ≠ 200) :
    c.request env method path reqData dec respData
      = { trace := sendEvents req0 text ++
            [.logDebug (resp.Status ++ " " ++ body),
             .logError "check resp.StatusCode failed: "
               (.errorString ("Status not ok: " ++ toString resp.StatusCode)),
             .bodyClose],
          respData := respData,
          outcome := .returned (some (.errorString ("Status not ok: " ++ toString resp.StatusCode))) } := by
  unfold Client.apiPrefixInForce at hN
  unfold withContentType at hD
  simp [Client.request, hl, hM, hN, hD, hB, hS, sendEvents, withContentType]

theorem request_status_ok {α : Type} (env : Env) (c : Client) (method path : String)
    (reqData : ReqData) (dec : Decoder α) (respData : Option α)
    (lg : Logger) (text : String) (req0 : Request) (resp : Response) (body : String)
    (hl : c.logger = some lg) (hM : env.Marshal reqData = .ok text)
    (hN : NewRequest env method (c.apiPrefixInForce env ++ path) text = .ok req0)
    (hD : env.Do (withContentType req0) = .ok resp) (hB : resp.Body = .ok body)
    (hS : resp.StatusCode = 200) (st : DecodeState α)
    (hU : Unmarshal env dec body
      { body := { Code := 0, Message := "", Data := if respData.isSome then .ptr else .nil },
        dest := respData, err := none } = st) :
    c.request env method path reqData dec respData
      = match st.err with
        | some err =>
          { trace := sendEvents req0 text ++
              [.logDebug (resp.Status ++ " " ++ body),
               .logError "json.Unmarshal() failed: " err, .bodyClose],
            respData := st.dest, outcome := .returned (some err) }
        | none =>
          { trace := sendEvents req0 text ++ [.logDebug (resp.Status ++ " " ++ body), .bodyClose],
            respData := st.dest,
            outcome := .returned (env.Ensure st.body.Code st.body.Message) } := by
  unfold Client.apiPrefixInForce at hN
  unfold withContentType at hD
  subst hU
  simp only [Client.request, hl, hM, hN, hD, hB, hS, sendEvents, withContentType]
  simp

/-- Every way a call on a client with a logger can go, with the run it produces. -/
theorem request_cases {α : Type} (env : Env) (c : Client) (method path : String)
    (reqData : ReqData) (dec : Decoder α) (respData : Option α) (lg : Logger)
    (hl : c.logger = some lg) :
    (∃ err, env.Marshal reqData = .error err ∧
      c.request env method path reqData dec respData
        = { trace := [.logError "json.Marshal() failed: " err], respData := respData,
            outcome := .returned (some err) }) ∨
    (∃ text err, env.Marshal reqData = .ok text ∧
      NewRequest env method (c.apiPrefixInForce env ++ path) text = .error err ∧
      c.request env method path reqData dec respData
        = { trace := [.logError "http.NewRequest() failed: " err], respData := respData,
            outcome := .returned (some err) }) ∨
    (∃ text req0, env.Marshal reqData = .ok text ∧
      NewRequest env method (c.apiPrefixInForce env ++ path) text = .ok req0 ∧
      ((∃ err, env.Do (withContentType req0) = .error err ∧
          c.request env method path reqData dec respData
            = { trace := sendEvents req0 text ++ [.logError "c.client.Do() failed: " err],
                respData := respData, outcome := .returned (some err) }) ∨
        (∃ resp, env.Do (withContentType req0) = .ok resp ∧
          ((∃ err, resp.Body = .error err ∧
              c.request env method path reqData dec respData
                = { trace := sendEvents req0 text ++
                      [.logError "ioutil.ReadAll() failed: " err, .bodyClose],
                    respData := respData, outcome := .returned (some err) }) ∨
            (∃ body, resp.Body = .ok body ∧
              ((resp.StatusCode ≠ 200 ∧
                  c.request env method path reqData dec respData
                    = { trace := sendEvents req0 text ++
                          [.logDebug (resp.Status ++ " " ++ body),
                           .logError "check resp.StatusCode failed: "
                             (.errorString ("Status not ok: " ++ toString resp.StatusCode)),
                           .bodyClose],
                        respData := respData,
                        outcome := .returned
                          (some (.errorString ("Status not ok: " ++ toString resp.StatusCode))) }) ∨
                (resp.StatusCode = 200 ∧
                  ∃ st, Unmarshal env dec body
                      { body := { Code := 0, Message := "",
                                  Data := if respData.isSome then .ptr else .nil },
                        dest := respData, err := none } = st ∧
                    ((∃ err, st.err = some err ∧
                        c.request env method path reqData dec respData
                          = { trace := sendEvents req0 text ++
                                [.logDebug (resp.Status ++ " " ++ body),
                                 .logError "json.Unmarshal() failed: " err, .bodyClose],
                              respData := st.dest, outcome := .returned (some err) }) ∨
                      (st.err = none ∧
                        c.request env method path reqData dec respData
                          = { trace := sendEvents req0 text ++
                                [.logDebug (resp.Status ++ " " ++ body), .bodyClose],
                              respData := st.dest,
                              outcome := .returned
                                (env.Ensure st.body.Code st.body.Message) }))))))))) := by
  cases hM : env.Marshal reqData with
  | error err =>
    left
    exact ⟨err, rfl, by simp [Client.request, logErrorReturn, hl, hM]⟩
  | ok text =>
    right
    cases hN : NewRequest env method (c.apiPrefixInForce env ++ path) text with
    | error err =>
      left
      refine ⟨text, err, rfl, hN, ?_⟩
      unfold Client.apiPrefixInForce at hN
      simp [Client.request, logErrorReturn, hl, hM, hN]
    | ok req0 =>
      right
      refine ⟨text, req0, rfl, hN, ?_⟩
      cases hD : env.Do (withContentType req0) with
      | error err =>
        left
        refine ⟨err, rfl, ?_⟩
        unfold Client.apiPrefixInForce at hN
        unfold withContentType at hD
        simp [Client.request, hl, hM, hN, hD, sendEvents, withContentType]
      | ok resp =>
        right
        refine ⟨resp, rfl, ?_⟩
        cases hB : resp.Body with
        | error err =>
          left
          refine ⟨err, rfl, ?_⟩
          unfold Client.apiPrefixInForce at hN
          unfold withContentType at hD
          simp [Client.request, hl, hM, hN, hD, hB, sendEvents, withContentType]
        | ok body =>
          right
          refine ⟨body, rfl, ?_⟩
          by_cases hS : resp.StatusCode = 200
          · right
            refine ⟨hS, _, rfl, ?_⟩
            have h := request_status_ok env c method path reqData dec respData lg text req0
              resp body hl hM hN hD hB hS _ rfl
            cases he : (Unmarshal env dec body
                { body := { Code := 0, Message := "",
                            Data := if respData.isSome then .ptr else .nil },
                  dest := respData, err := none }).err with
            | some err =>
              left
              refine ⟨err, rfl, ?_⟩
              rw [h]
              simp only [he]
            | none =>
              right
              refine ⟨rfl, ?_⟩
              rw [h]
              simp only [he]
          · left
            exact ⟨hS, request_status_fail env c method path reqData dec respData lg text req0
              resp body hl hM hN hD hB hS⟩

/-- No call hands more than one request to the transport. -/
theorem sentRequests_length_le_one {α : Type} (env : Env) (c : Client) (method path : String)
    (reqData : ReqData) (dec : Decoder α) (respData : Option α) :
    (sentRequests (c.request env method path reqData dec respData).trace).length ≤ 1 := by
  cases hl : c.logger with
  | none =>
    rw [request_nil_logger env c method path reqData dec respData hl]
    simp [sentRequests]
  | some lg =>
    rcases request_cases env c method path reqData dec respData lg hl with
      ⟨e, _, hr⟩ | ⟨text, e, _, _, hr⟩ | ⟨text, req0, _, _, ⟨e, _, hr⟩ |
        ⟨resp, _, ⟨e, _, hr⟩ | ⟨body, _, ⟨_, hr⟩ | ⟨_, st, _, ⟨e, _, hr⟩ | ⟨_, hr⟩⟩⟩⟩⟩ <;>
      rw [hr] <;> simp [sentRequests, sendEvents]

theorem headerGet_headerSet (h : List (String × String)) (key value : String) :
    headerGet (headerSet h key value) key = value := by
  have hfind : ∀ l : List (String × String),
      List.find? (fun kv => kv.1 == key) (l.filter (fun kv => kv.1 != key) ++ [(key, value)])
        = some (key, value) := by
    intro l
    induction l with
    | nil => simp
    | cons x xs ih =>
      by_cases hx : x.1 = key
      · have hf : (x.1 != key) = false := by simp [hx]
        rw [List.filter_cons, hf]
        exact ih
      · have hf : (x.1 != key) = true := by simp [hx]
        have hb : (x.1 == key) = false := by simp [hx]
        rw [List.filter_cons, hf]
        simp only [if_true, List.cons_append, List.find?_cons, hb]
        exact ih
  simp [headerGet, headerSet, hfind]

theorem NewRequest_ok (env : Env) (method url body : String) (req0 : Request)
    (h : NewRequest env method url body = .ok req0) : req0.Body = body ∧ req0.Header = [] := by
  unfold NewRequest at h
  simp only at h
  by_cases hv : validMethod (if method = "" then "GET" else method) = true
  · cases hu : urlParse env url with
    | error e => simp [hv, hu] at h
    | ok u =>
      simp only [hv, hu, Bool.not_true, Bool.false_eq_true, if_false, Except.ok.injEq] at h
      subst h
      exact ⟨rfl, rfl⟩
  · simp [hv] at h

/-! ### Decoding a well-formed envelope -/

theorem saveError_none_right (e : Option GoError) : saveError e none = e := by
  cases e <;> rfl

theorem storeInt_num_ok (lit : String) (code old : Int)
    (hlit : parseIntLit lit = some code) (hrange : inInt64 code = true) :
    storeInt (.num lit) old = (code, none) := by
  simp [storeInt, hlit, hrange]

theorem keyMatches_code_code : keyMatches "code" "code" = true := by decide

theorem keyMatches_code_message : keyMatches "code" "message" = false := by decide

theorem keyMatches_code_data : keyMatches "code" "data" = false := by decide

theorem keyMatches_message_message : keyMatches "message" "message" = true := by decide

theorem keyMatches_message_data : keyMatches "message" "data" = false := by decide

theorem keyMatches_data_data : keyMatches "data" "data" = true := by decide

theorem storeEnvelopeMember_code {α : Type} (env : Env) (dec : Decoder α) (st : DecodeState α)
    (lit : String) (code : Int)
    (hlit : parseIntLit lit = some code) (hrange : inInt64 code = true) :
    storeEnvelopeMember env dec st ("code", .num lit)
      = { st with body := { st.body with Code := code } } := by
  simp [storeEnvelopeMember, keyMatches_code_code, storeInt_num_ok lit code _ hlit hrange,
    saveError_none_right]

theorem storeEnvelopeMember_message {α : Type} (env : Env) (dec : Decoder α)
    (st : DecodeState α) (message : String) :
    storeEnvelopeMember env dec st ("message", .str message)
      = { st with body := { st.body with Message := message } } := by
  simp [storeEnvelopeMember, keyMatches_code_message, keyMatches_message_message, storeString,
    saveError_none_right]

theorem storeEnvelopeMember_data {α : Type} (env : Env) (dec : Decoder α)
    (st : DecodeState α) (v : JSON) :
    storeEnvelopeMember env dec st ("data", v) = storeData env dec v st := by
  simp [storeEnvelopeMember, keyMatches_code_data, keyMatches_message_data, keyMatches_data_data]

theorem storeData_setCode {α : Type} (env : Env) (dec : Decoder α) (v : JSON)
    (st : DecodeState α) (code : Int) :
    storeData env dec v { st with body := { st.body with Code := code } }
      = { storeData env dec v st with
          body := { (storeData env dec v st).body with Code := code } } := by
  unfold storeData
  cases v <;> simp <;> split <;> simp

theorem storeData_setMessage {α : Type} (env : Env) (dec : Decoder α) (v : JSON)
    (st : DecodeState α) (message : String) :
    storeData env dec v { st with body := { st.body with Message := message } }
      = { storeData env dec v st with
          body := { (storeData env dec v st).body with Message := message } } := by
  unfold storeData
  cases v <;> simp <;> split <;> simp

/-- The members of a well-formed envelope can be decoded in any order. -/
theorem storeEnvelopeMember_comm {α : Type} (env : Env) (dec : Decoder α)
    (lit message : String) (data : Option JSON) (code : Int)
    (hlit : parseIntLit lit = some code) (hrange : inInt64 code = true)
    (x : String × JSON) (hx : x ∈ envelopeMembers lit message data)
    (y : String × JSON) (hy : y ∈ envelopeMembers lit message data) (z : DecodeState α) :
    storeEnvelopeMember env dec (storeEnvelopeMember env dec z x) y
      = storeEnvelopeMember env dec (storeEnvelopeMember env dec z y) x := by
  have hc := fun st => storeEnvelopeMember_code env dec st lit code hlit hrange
  have hm := fun st => storeEnvelopeMember_message env dec st message
  have hd := fun st v => storeEnvelopeMember_data env dec st v
  cases data with
  | none =>
    simp only [envelopeMembers, List.append_nil, List.mem_cons, List.mem_singleton,
      List.not_mem_nil, or_false] at hx hy
    rcases hx with rfl | rfl <;> rcases hy with rfl | rfl <;> simp only [hc, hm]
  | some v =>
    simp only [envelopeMembers, List.cons_append, List.nil_append, List.mem_cons,
      List.mem_singleton, List.not_mem_nil, or_false] at hx hy
    rcases hx with rfl | rfl | rfl <;> rcases hy with rfl | rfl | rfl <;>
      simp only [hc, hm, hd, storeData_setCode, storeData_setMessage]

/-- Decoding a well-formed envelope: the code and the message are read off, and
the `data` member acts on the destination as `decodeData` says. -/
theorem unmarshal_envelope {α : Type} (env : Env) (dec : Decoder α) (body : String)
    (respData : Option α) (doc : JSON) (code : Int) (message : String) (data : Option JSON)
    (hparse : env.parseJSON body = some doc) (hwf : WellFormedEnvelope doc code message data) :
    let st := Unmarshal env dec body
      { body := { Code := 0, Message := "", Data := if respData.isSome then .ptr else .nil },
        dest := respData, err := none }
    st.body.Code = code ∧ st.body.Message = message ∧
      st.dest = (decodeData env dec data respData).1 ∧
      st.err = (decodeData env dec data respData).2 := by
  obtain ⟨members, lit, rfl, hperm, hlit, hrange⟩ := hwf
  simp only [Unmarshal, hparse]
  rw [hperm.foldl_eq' (fun x hx y hy z => by
    have hx := hperm.subset hx
    have hy := hperm.subset hy
    exact storeEnvelopeMember_comm env dec lit message data code hlit hrange x hx y hy z)]
  cases data with
  | none =>
    simp [envelopeMembers, storeEnvelopeMember_code env dec _ lit code hlit hrange,
      storeEnvelopeMember_message, decodeData]
  | some v =>
    simp only [envelopeMembers, List.cons_append, List.nil_append, List.foldl_cons,
      List.foldl_nil, storeEnvelopeMember_code env dec _ lit code hlit hrange,
      storeEnvelopeMember_message, storeEnvelopeMember_data, storeData_setCode,
      storeData_setMessage]
    cases respData with
    | none => cases v <;> simp [storeData, decodeData, saveError]
    | some d => cases v <;> simp [storeData, decodeData, saveError]

/-- The run of a call answered with status 200 and a well-formed envelope whose
`data` member decodes without error. -/
theorem request_envelope {α : Type} (env : Env) (c : Client) (method path : String)
    (reqData : ReqData) (dec : Decoder α) (respData : Option α)
    (req : Request) (resp : Response) (body : String) (doc : JSON)
    (code : Int) (message : String) (data : Option JSON)
    (hsent : Event.httpDo req ∈ (c.request env method path reqData dec respData).trace)
    (hresp : env.Do req = .ok resp) (hbody : resp.Body = .ok body)
    (hstatus : resp.StatusCode = 200)
    (hparse : env.parseJSON body = some doc)
    (hwf : WellFormedEnvelope doc code message data)
    (hdata : (decodeData env dec data respData).2 = none) :
    (c.request env method path reqData dec respData).outcome
        = .returned (env.Ensure code message) ∧
      (c.request env method path reqData dec respData).respData
        = (decodeData env dec data respData).1 := by
  obtain ⟨lg, text, req0, hl, hM, hN, rfl⟩ :=
    request_httpDo_inv env c method path reqData dec respData req hsent
  obtain ⟨hcode, hmsg, hdest, herr⟩ :=
    unmarshal_envelope env dec body respData doc code message data hparse hwf
  rw [request_status_ok env c method path reqData dec respData lg text req0 resp body
    hl hM hN hresp hbody hstatus _ rfl]
  rw [hdata] at herr
  simp only [herr, hcode, hmsg, hdest, and_self]

theorem sealingBodyDoc_wellFormed :
    WellFormedEnvelope sealingBodyDoc 0 ""
      (some (.obj [("Sealing_ID", .str "sector-1"), ("Sealing_Status", .num "2")])) :=
  ⟨_, "0", rfl, List.Perm.refl _, by decide, by decide⟩

theorem busyBodyDoc_wellFormed :
    WellFormedEnvelope busyBodyDoc 1 "busy" (some (.obj [("Sealing_ID", .str "sector-1")])) :=
  ⟨_, "1", rfl, List.Perm.refl _, by decide, by decide⟩

/-! ### Decimal rendering -/

theorem digitChar_isDigit (k : Nat) (hk : k < 10) :
    (Nat.digitChar k).isDigit = true ∧ (Nat.digitChar k).toNat - 48 = k := by
  interval_cases k <;> exact ⟨by decide, by decide⟩

theorem digitChar_mod_isDigit (n : Nat) : (Nat.digitChar (n % 10)).isDigit = true :=
  (digitChar_isDigit (n % 10) (Nat.mod_lt _ (by decide))).1

theorem foldl_toDigitsCore (fuel : Nat) : ∀ (n : Nat) (ds : List Char), n < fuel →
    List.foldl (fun (acc : Option Nat) c =>
        match acc with
        | none => none
        | some m => if c.isDigit then some (10 * m + (c.toNat - 48)) else none)
      (some 0) (Nat.toDigitsCore 10 fuel n ds)
    = List.foldl (fun (acc : Option Nat) c =>
        match acc with
        | none => none
        | some m => if c.isDigit then some (10 * m + (c.toNat - 48)) else none)
      (some n) ds := by
  induction fuel with
  | zero => intro n ds h; omega
  | succ fuel ih =>
    intro n ds h
    have hd := digitChar_isDigit (n % 10) (Nat.mod_lt _ (by decide))
    simp only [Nat.toDigitsCore]
    split
    · rename_i h0
      have hn : n % 10 = n := Nat.mod_eq_of_lt (by omega)
      rw [hn] at hd ⊢
      simp only [List.foldl_cons, hd.1, hd.2, if_true, Nat.mul_zero, Nat.zero_add]
    · rename_i h0
      rw [ih (n / 10) _ (by omega)]
      simp only [List.foldl_cons, hd.1, hd.2, if_true]
      congr 2
      omega

theorem toDigitsCore_ne_nil (fuel n : Nat) (ds : List Char) (h : ds ≠ [] ∨ 0 < fuel) :
    Nat.toDigitsCore 10 fuel n ds ≠ [] := by
  induction fuel generalizing n ds with
  | zero =>
    rcases h with h | h
    · simpa [Nat.toDigitsCore] using h
    · omega
  | succ fuel ih =>
    simp only [Nat.toDigitsCore]
    split
    · simp
    · exact ih _ _ (Or.inl (by simp))

theorem toDigitsCore_isDigit (fuel : Nat) : ∀ (n : Nat) (ds : List Char),
    (∀ c ∈ ds, c.isDigit = true) → ∀ c ∈ Nat.toDigitsCore 10 fuel n ds, c.isDigit = true := by
  induction fuel with
  | zero => intro n ds h; simpa [Nat.toDigitsCore] using h
  | succ fuel ih =>
    intro n ds h
    have hd := digitChar_isDigit (n % 10) (Nat.mod_lt _ (by decide))
    simp only [Nat.toDigitsCore]
    split
    · intro c hc
      rcases List.mem_cons.mp hc with rfl | hc
      · exact hd.1
      · exact h c hc
    · apply ih
      intro c hc
      rcases List.mem_cons.mp hc with rfl | hc
      · exact hd.1
      · exact h c hc

theorem parseDigits_repr (n : Nat) : parseDigits (Nat.repr n).data = some n := by
  have hne : Nat.toDigitsCore 10 (n + 1) n [] ≠ [] := toDigitsCore_ne_nil _ _ _ (Or.inr (by omega))
  show parseDigits (Nat.toDigits 10 n) = some n
  unfold parseDigits Nat.toDigits
  rw [if_neg hne, foldl_toDigitsCore (n + 1) n [] (by omega)]
  rfl

theorem repr_data_isDigit (n : Nat) : ∀ c ∈ (Nat.repr n).data, c.isDigit = true :=
  toDigitsCore_isDigit (n + 1) n [] (by simp)

theorem parseIntLit_FormatInt (v : Int) : parseIntLit (FormatInt v) = some v := by
  unfold FormatInt
  split
  · rename_i hneg
    have hd : ("-" ++ Nat.repr v.natAbs).data = '-' :: (Nat.repr v.natAbs).data := by
      rw [String.data_append]
      rfl
    simp only [parseIntLit, hd, parseDigits_repr, Option.map_some', Option.some.injEq]
    omega
  · rename_i hpos
    have hall := repr_data_isDigit v.natAbs
    have hp := parseDigits_repr v.natAbs
    cases hdata : (Nat.repr v.natAbs).data with
    | nil => simp [hdata, parseDigits] at hp
    | cons d rest =>
      rw [hdata] at hall hp
      have hdig : d.isDigit = true := hall d (List.mem_cons_self _ _)
      have hminus : d ≠ '-' := by
        rintro rfl
        exact absurd hdig (by decide)
      have hplus : d ≠ '+' := by
        rintro rfl
        exact absurd hdig (by decide)
      unfold parseIntLit
      rw [hdata]
      split
      · rename_i heq
        exact absurd (List.cons.inj heq).1 hminus
      · rename_i heq
        exact absurd (List.cons.inj heq).1 hplus
      · rw [hp]
        simp only [Option.map_some', Option.some.injEq]
        omega

theorem data_not_mem_append (c : Char) (a b : String) (ha : c ∉ a.data) (hb : c ∉ b.data) :
    c ∉ (a ++ b).data := by
  rw [String.data_append]
  simp [ha, hb]

theorem Log.pad_length (width n : Nat) : (Log.pad width n).length = width := by
  induction width generalizing n with
  | zero => rfl
  | succ w ih => simp [Log.pad, ih]

theorem Log.render_isTimestamp (now : Log.Time) : Log.isTimestamp now.render = true := by
  simp [Log.Time.render, Log.pad, Log.isTimestamp, digitChar_mod_isDigit]

/-! ### Non-200 status -/

/-- C1: whatever the method, path, payload, destination and body, when the
transport answers the request of the call with a status code other than 200,
`request` returns a non-nil error and the destination is as it was before the
call; once the body has been read, whatever it contains (a well-formed envelope
with code 0 included: the scanner is never consulted), that error is the
transport-status error `Status not ok: <code>`. -/
theorem request_non200_is_status_error {α : Type} (env : Env) (c : Client)
    (method path : String) (reqData : ReqData) (dec : Decoder α) (respData : Option α)
    (req : Request) (resp : Response)
    (hsent : Event.httpDo req ∈ (c.request env method path reqData dec respData).trace)
    (hresp : env.Do req = .ok resp) (hstatus : resp.StatusCode ≠ 200) :
    (∃ err, (c.request env method path reqData dec respData).outcome = .returned (some err)) ∧
      (c.request env method path reqData dec respData).respData = respData ∧
      (∀ body, resp.Body = .ok body →
        (c.request env method path reqData dec respData).outcome
          = .returned (some (.errorString ("Status not ok: " ++ toString resp.StatusCode)))) := by
  obtain ⟨lg, text, req0, hl, hM, hN, rfl⟩ :=
    request_httpDo_inv env c method path reqData dec respData req hsent
  cases hB : resp.Body with
  | error err =>
    rw [request_read_fail env c method path reqData dec respData lg text req0 resp err
      hl hM hN hresp hB]
    exact ⟨⟨err, rfl⟩, rfl, fun body hb => by simp at hb⟩
  | ok body =>
    rw [request_status_fail env c method path reqData dec respData lg text req0 resp body
      hl hM hN hresp hB hstatus]
    exact ⟨⟨_, rfl⟩, rfl, fun _ _ => rfl⟩

/-- C1, at `GetSealing` against a service answering 500 with a success envelope. -/
theorem request_non200_is_status_error_witness :
    (Event.httpDo demoSealingRequest
        ∈ (demoClient.request failingEnv "GET" "/v1/sector/f01234/sector-1" .nil sealingDecoder
            (some zeroSealingData)).trace ∧
      failingEnv.Do demoSealingRequest
        = .ok (demoResponse "500 Internal Server Error" 500 sealingBodyText) ∧
      failingEnv.parseJSON sealingBodyText = some sealingBodyDoc ∧
      WellFormedEnvelope sealingBodyDoc 0 ""
        (some (.obj [("Sealing_ID", .str "sector-1"), ("Sealing_Status", .num "2")]))) ∧
    ((demoClient.request failingEnv "GET" "/v1/sector/f01234/sector-1" .nil sealingDecoder
          (some zeroSealingData)).outcome
        = .returned (some (.errorString ("Status not ok: " ++ toString (500 : Int)))) ∧
      (demoClient.request failingEnv "GET" "/v1/sector/f01234/sector-1" .nil sealingDecoder
          (some zeroSealingData)).respData = some zeroSealingData) :=
  ⟨⟨by decide, rfl, rfl, sealingBodyDoc_wellFormed⟩,
   (request_non200_is_status_error failingEnv demoClient "GET" "/v1/sector/f01234/sector-1"
      .nil sealingDecoder (some zeroSealingData) demoSealingRequest
      (demoResponse "500 Internal Server Error" 500 sealingBodyText)
      (by decide) rfl (by decide)).2.2 sealingBodyText rfl,
   (request_non200_is_status_error failingEnv demoClient "GET" "/v1/sector/f01234/sector-1"
      .nil sealingDecoder (some zeroSealingData) demoSealingRequest
      (demoResponse "500 Internal Server Error" 500 sealingBodyText)
      (by decide) rfl (by decide)).2.1⟩

/-! ### Envelope with a non-success code -/

/-- C2 (as stated, refuted): against a service answering 200 with the
well-formed envelope `{"code":1,"message":"busy","data":{"Sealing_ID":"sector-1"}}`,
`GetSealing` returns the domain error of code 1, and the destination, all zero
before the call, holds `SealingID = "sector-1"` afterwards. -/
theorem domain_error_populates_destination :
    (Event.httpDo demoSealingRequest ∈ (demoClient.GetSealing busyEnv "sector-1").trace ∧
      busyEnv.Do demoSealingRequest = .ok (demoResponse "200 OK" 200 busyBodyText) ∧
      busyEnv.parseJSON busyBodyText = some busyBodyDoc ∧
      WellFormedEnvelope busyBodyDoc 1 "busy" (some (.obj [("Sealing_ID", .str "sector-1")]))) ∧
    (demoClient.GetSealing busyEnv "sector-1").outcome
      = .returned (busyEnv.Ensure 1 "busy") ∧
    busyEnv.Ensure 1 "busy" = some (.domain "busy" 1 "busy") ∧
    (demoClient.GetSealing busyEnv "sector-1").respData
      = some { zeroSealingData with SealingID := "sector-1" } ∧
    (demoClient.GetSealing busyEnv "sector-1").respData ≠ some zeroSealingData :=
  ⟨⟨by decide, rfl, rfl, busyBodyDoc_wellFormed⟩, by decide, by decide, by decide, by decide⟩

/-- C2 (amended): for every HTTP-200 response whose body is a well-formed
envelope with a non-success code (one that `Ensure` maps to an error) and a
`data` member that, if present, decodes without error, `request` returns the
domain error `Ensure` gives for the code and message; the destination is equal
to its state before the call when the envelope carries no `data` member or a
`null` one (and stays absent when none was supplied), and otherwise holds the
`data` member decoded into it. -/
theorem domain_error_envelope {α : Type} (env : Env) (c : Client) (method path : String)
    (reqData : ReqData) (dec : Decoder α) (respData : Option α)
    (req : Request) (resp : Response) (body : String) (doc : JSON)
    (code : Int) (message : String) (data : Option JSON) (domainErr : GoError)
    (hsent : Event.httpDo req ∈ (c.request env method path reqData dec respData).trace)
    (hresp : env.Do req = .ok resp) (hbody : resp.Body = .ok body)
    (hstatus : resp.StatusCode = 200)
    (hparse : env.parseJSON body = some doc)
    (hwf : WellFormedEnvelope doc code message data)
    (hdata : (decodeData env dec data respData).2 = none)
    (hcode : env.Ensure code message = some domainErr) :
    (c.request env method path reqData dec respData).outcome = .returned (some domainErr) ∧
      (c.request env method path reqData dec respData).respData
        = (decodeData env dec data respData).1 ∧
      ((data = none ∨ data = some .null) →
        (c.request env method path reqData dec respData).respData = respData) ∧
      (respData = none → (c.request env method path reqData dec respData).respData = none) := by
  obtain ⟨hout, hdest⟩ := request_envelope env c method path reqData dec respData req resp body
    doc code message data hsent hresp hbody hstatus hparse hwf hdata
  refine ⟨by rw [hout, hcode], hdest, ?_, ?_⟩
  · rintro (rfl | rfl) <;> rw [hdest] <;> simp [decodeData]
  · rintro rfl
    rw [hdest]
    cases data with
    | none => rfl
    | some v => cases v <;> rfl

/-- C2 (amended), at `GetSealing` against the domain-error envelope of `busyBodyText`. -/
theorem domain_error_envelope_witness :
    (Event.httpDo demoSealingRequest
        ∈ (demoClient.request busyEnv "GET" "/v1/sector/f01234/sector-1" .nil sealingDecoder
            (some zeroSealingData)).trace ∧
      busyEnv.Do demoSealingRequest = .ok (demoResponse "200 OK" 200 busyBodyText) ∧
      busyEnv.parseJSON busyBodyText = some busyBodyDoc ∧
      (decodeData busyEnv sealingDecoder (some (.obj [("Sealing_ID", .str "sector-1")]))
        (some zeroSealingData)).2 = none ∧
      busyEnv.Ensure 1 "busy" = some (.domain "busy" 1 "busy")) ∧
    (demoClient.request busyEnv "GET" "/v1/sector/f01234/sector-1" .nil sealingDecoder
        (some zeroSealingData)).outcome = .returned (some (.domain "busy" 1 "busy")) :=
  ⟨⟨by decide, rfl, rfl, by decide, by decide⟩,
   (domain_error_envelope busyEnv demoClient "GET" "/v1/sector/f01234/sector-1" .nil
     sealingDecoder (some zeroSealingData) demoSealingRequest
     (demoResponse "200 OK" 200 busyBodyText) busyBodyText busyBodyDoc 1 "busy"
     (some (.obj [("Sealing_ID", .str "sector-1")])) (.domain "busy" 1 "busy")
     (by decide) rfl rfl rfl rfl busyBodyDoc_wellFormed (by decide) (by decide)).1⟩

/-! ### Envelope with the success code -/

/-- C3: for every HTTP-200 response whose body is a well-formed envelope with
the success code (the code `Ensure` maps to nil; its `data` member, if present,
decoding without error) and for every destination, `request` returns a nil
error and the destination holds exactly what decoding the `data` member yields:
the `data` object decoded into the supplied struct.  In particular, 0 being the
success code, `GetSealing` against the body
`{"code":0,"message":"","data":{"Sealing_ID":"sector-1","Sealing_Status":2}}`
returns a nil error and a record with `SealingID = "sector-1"`,
`SealingStatus = 2` and every other field zero. -/
theorem success_envelope_fills_destination :
    (∀ (α : Type) (env : Env) (c : Client) (method path : String) (reqData : ReqData)
        (dec : Decoder α) (respData : Option α) (req : Request) (resp : Response)
        (body : String) (doc : JSON) (code : Int) (message : String) (data : Option JSON),
      Event.httpDo req ∈ (c.request env method path reqData dec respData).trace →
      env.Do req = .ok resp → resp.Body = .ok body → resp.StatusCode = 200 →
      env.parseJSON body = some doc → WellFormedEnvelope doc code message data →
      (decodeData env dec data respData).2 = none →
      env.Ensure code message = none →
      (c.request env method path reqData dec respData).outcome = .returned none ∧
        (c.request env method path reqData dec respData).respData
          = (decodeData env dec data respData).1 ∧
        (∀ d members, respData = some d → data = some (.obj members) →
          (c.request env method path reqData dec respData).respData
            = some (dec.decodeObject members d).1)) ∧
    (∀ (env : Env) (c : Client) (req : Request) (resp : Response),
      Event.httpDo req ∈ (c.GetSealing env "sector-1").trace →
      env.Do req = .ok resp → resp.Body = .ok sealingBodyText → resp.StatusCode = 200 →
      env.parseJSON sealingBodyText = some sealingBodyDoc →
      env.Ensure 0 "" = none →
      (c.GetSealing env "sector-1").outcome = .returned none ∧
        (c.GetSealing env "sector-1").respData = some sector1Record ∧
        sector1Record.SealingID = "sector-1" ∧ sector1Record.SealingStatus = 2) := by
  constructor
  · intro α env c method path reqData dec respData req resp body doc code message data
      hsent hresp hbody hstatus hparse hwf hdata hsucc
    obtain ⟨hout, hdest⟩ := request_envelope env c method path reqData dec respData req resp
      body doc code message data hsent hresp hbody hstatus hparse hwf hdata
    refine ⟨by rw [hout, hsucc], hdest, ?_⟩
    rintro d members rfl rfl
    rw [hdest]
    rfl
  · intro env c req resp hsent hresp hbody hstatus hparse hsucc
    unfold Client.GetSealing at hsent ⊢
    have hdata : (decodeData env sealingDecoder
        (some (.obj [("Sealing_ID", .str "sector-1"), ("Sealing_Status", .num "2")]))
        (some ({} : SealingData))).2 = none := by
      show (sealingDecoder.decodeObject
        [("Sealing_ID", .str "sector-1"), ("Sealing_Status", .num "2")] {}).2 = none
      decide
    obtain ⟨hout, hdest⟩ := request_envelope env c _ _ _ sealingDecoder _ req resp
      sealingBodyText sealingBodyDoc 0 "" _ hsent hresp hbody hstatus hparse
      sealingBodyDoc_wellFormed hdata
    refine ⟨by rw [hout, hsucc], ?_, rfl, rfl⟩
    rw [hdest]
    show some (sealingDecoder.decodeObject
      [("Sealing_ID", .str "sector-1"), ("Sealing_Status", .num "2")] {}).1 = some sector1Record
    decide

/-- C3, at `GetSealing "sector-1"` against the success envelope of `sealingBodyText`. -/
theorem success_envelope_fills_destination_witness :
    (Event.httpDo demoSealingRequest ∈ (demoClient.GetSealing sealingEnv "sector-1").trace ∧
      sealingEnv.Do demoSealingRequest = .ok (demoResponse "200 OK" 200 sealingBodyText) ∧
      sealingEnv.parseJSON sealingBodyText = some sealingBodyDoc ∧
      sealingEnv.Ensure 0 "" = none) ∧
    ((demoClient.GetSealing sealingEnv "sector-1").outcome = .returned none ∧
      (demoClient.GetSealing sealingEnv "sector-1").respData = some sector1Record ∧
      sector1Record.SealingID = "sector-1" ∧ sector1Record.SealingStatus = 2) :=
  ⟨⟨by decide, rfl, rfl, rfl⟩,
   ⟨(success_envelope_fills_destination.1 SealingData sealingEnv demoClient "GET"
      "/v1/sector/f01234/sector-1" .nil sealingDecoder (some zeroSealingData)
      demoSealingRequest (demoResponse "200 OK" 200 sealingBodyText) sealingBodyText
      sealingBodyDoc 0 ""
      (some (.obj [("Sealing_ID", .str "sector-1"), ("Sealing_Status", .num "2")]))
      (by decide) rfl rfl rfl rfl sealingBodyDoc_wellFormed (by decide) rfl).1,
    (success_envelope_fills_destination.2 sealingEnv demoClient demoSealingRequest
      (demoResponse "200 OK" 200 sealingBodyText) (by decide) rfl rfl rfl rfl rfl).2.1,
    rfl, rfl⟩⟩

/-! ### `GetSealing` against status 500 -/

/-- C4: for every sealing identifier, when the service answers `GetSealing` with
HTTP status 500, `GetSealing` returns a non-nil error together with a
`SealingData` whose fields are all zero; once the body has been read, whatever
it contains, the error is the transport-status error `Status not ok: 500`. -/
theorem GetSealing_status_500 (env : Env) (c : Client) (sealingID : String)
    (req : Request) (resp : Response)
    (hsent : Event.httpDo req ∈ (c.GetSealing env sealingID).trace)
    (hresp : env.Do req = .ok resp) (hstatus : resp.StatusCode = 500) :
    (∃ err, (c.GetSealing env sealingID).outcome = .returned (some err)) ∧
      (c.GetSealing env sealingID).respData = some zeroSealingData ∧
      (∀ body, resp.Body = .ok body →
        (c.GetSealing env sealingID).outcome
          = .returned (some (.errorString "Status not ok: 500"))) := by
  unfold Client.GetSealing at hsent ⊢
  obtain ⟨lg, text, req0, hl, hM, hN, rfl⟩ := request_httpDo_inv env c _ _ _ _ _ req hsent
  have hne : resp.StatusCode ≠ 200 := by rw [hstatus]; decide
  cases hB : resp.Body with
  | error err =>
    rw [request_read_fail env c _ _ _ _ _ lg text req0 resp err hl hM hN hresp hB]
    exact ⟨⟨err, rfl⟩, rfl, fun body hb => by simp at hb⟩
  | ok body =>
    rw [request_status_fail env c _ _ _ _ _ lg text req0 resp body hl hM hN hresp hB hne,
      hstatus]
    exact ⟨⟨_, rfl⟩, rfl, fun _ _ => rfl⟩

/-- C4, at `GetSealing "sector-1"` against a service answering 500. -/
theorem GetSealing_status_500_witness :
    (Event.httpDo demoSealingRequest ∈ (demoClient.GetSealing failingEnv "sector-1").trace ∧
      failingEnv.Do demoSealingRequest
        = .ok (demoResponse "500 Internal Server Error" 500 sealingBodyText)) ∧
    ((demoClient.GetSealing failingEnv "sector-1").outcome
        = .returned (some (.errorString "Status not ok: 500")) ∧
      (demoClient.GetSealing failingEnv "sector-1").respData = some zeroSealingData) :=
  ⟨⟨by decide, rfl⟩,
   (GetSealing_status_500 failingEnv demoClient "sector-1" demoSealingRequest
      (demoResponse "500 Internal Server Error" 500 sealingBodyText)
      (by decide) rfl rfl).2.2 sealingBodyText rfl,
   (GetSealing_status_500 failingEnv demoClient "sector-1" demoSealingRequest
      (demoResponse "500 Internal Server Error" 500 sealingBodyText)
      (by decide) rfl rfl).2.1⟩

/-! ### Requests handed to the transport -/

/-- C5 (as stated, refuted): the payload of `GetSealing` serialises, yet no
request reaches the transport, either because the client is fresh from
`NewClient` (the call panics on the nil logger) or because request construction
fails (a sealing identifier with a line feed makes the URL unparsable). -/
theorem serialised_payload_nothing_sent :
    sealingEnv.Marshal .nil = .ok "null" ∧
      (sentRequests ((NewClient demoConfig).GetSealing sealingEnv "sector-1").trace).length = 0 ∧
      (sentRequests (demoClient.GetSealing sealingEnv "sector\n1").trace).length = 0 :=
  ⟨rfl, by decide, by decide⟩

/-- C5 (amended): for every request payload that serialises successfully, one
call of `request` hands at most one HTTP request to the transport, and exactly
one when the client has a logger and request construction succeeds; every
request handed over carries the header `Content-Type: application/json` and the
serialised payload as its body. -/
theorem at_most_one_request_sent {α : Type} (env : Env) (c : Client) (method path : String)
    (reqData : ReqData) (dec : Decoder α) (respData : Option α) (text : String)
    (hM : env.Marshal reqData = .ok text) :
    (sentRequests (c.request env method path reqData dec respData).trace).length ≤ 1 ∧
      (∀ req ∈ sentRequests (c.request env method path reqData dec respData).trace,
        headerGet req.Header "Content-Type" = "application/json" ∧ req.Body = text) ∧
      (∀ lg req0, c.logger = some lg →
        NewRequest env method (c.apiPrefixInForce env ++ path) text = .ok req0 →
        sentRequests (c.request env method path reqData dec respData).trace
          = [withContentType req0]) := by
  cases hl : c.logger with
  | none =>
    rw [request_nil_logger env c method path reqData dec respData hl]
    simp [sentRequests]
  | some lg =>
    have hprop : ∀ req0 : Request,
        NewRequest env method (c.apiPrefixInForce env ++ path) text = .ok req0 →
        headerGet (withContentType req0).Header "Content-Type" = "application/json" ∧
          (withContentType req0).Body = text := by
      intro req0 hN
      exact ⟨headerGet_headerSet _ _ _, (NewRequest_ok env _ _ _ req0 hN).1⟩
    rcases request_cases env c method path reqData dec respData lg hl with
      ⟨e, hM', hr⟩ | ⟨text', e, hM', hN, hr⟩ | ⟨text', req0, hM', hN, ⟨e, _, hr⟩ |
        ⟨resp, _, ⟨e, _, hr⟩ | ⟨body, _, ⟨_, hr⟩ | ⟨_, st, _, ⟨e, _, hr⟩ | ⟨_, hr⟩⟩⟩⟩⟩
    · rw [hM] at hM'
      simp at hM'
    · rw [hM] at hM'
      simp only [Except.ok.injEq] at hM'
      subst hM'
      rw [hr]
      refine ⟨by simp [sentRequests], by simp [sentRequests], ?_⟩
      intro lg' req0 _ hN'
      rw [hN] at hN'
      simp at hN'
    all_goals
      rw [hM] at hM'
      simp only [Except.ok.injEq] at hM'
      subst hM'
      rw [hr]
      have hs : ∀ tail : List Event, sentRequests tail = [] →
          sentRequests (sendEvents req0 text ++ tail) = [withContentType req0] := by
        intro tail ht
        simp only [sentRequests] at ht
        simp [sentRequests, sendEvents, ht]
      rw [hs _ (by simp [sentRequests])]
      refine ⟨by simp, ?_, ?_⟩
      · intro req hreq
        rw [List.mem_singleton] at hreq
        subst hreq
        exact hprop req0 hN
      · intro lg' req0' _ hN'
        rw [hN] at hN'
        simp only [Except.ok.injEq] at hN'
        subst hN'
        rfl

/-- C5 (amended), at `GetSealing` on a client with a logger. -/
theorem at_most_one_request_sent_witness :
    sealingEnv.Marshal .nil = .ok "null" ∧
      ((sentRequests (demoClient.GetSealing sealingEnv "sector-1").trace).length ≤ 1 ∧
        (∀ req ∈ sentRequests (demoClient.GetSealing sealingEnv "sector-1").trace,
          headerGet req.Header "Content-Type" = "application/json" ∧ req.Body = "null") ∧
        (∀ lg req0, demoClient.logger = some lg →
          NewRequest sealingEnv "GET"
              (demoClient.apiPrefixInForce sealingEnv ++
                ("/v1/sector/" ++ demoClient.config.MinerID ++ "/" ++ "sector-1")) "null"
            = .ok req0 →
          sentRequests (demoClient.GetSealing sealingEnv "sector-1").trace
            = [withContentType req0])) :=
  ⟨rfl, at_most_one_request_sent sealingEnv demoClient "GET"
    ("/v1/sector/" ++ demoClient.config.MinerID ++ "/" ++ "sector-1") .nil sealingDecoder
    (some {}) "null" rfl⟩

/-! ### Diagnostics on the error paths -/

/-- Which diagnostics precede an error return.  On the serialization,
request-construction, transport, body-read, non-200 and envelope-decoding paths
the logger receives exactly one `Error` call, carrying the returned error and
the message of the failed step.  The one other error return is that of the
error of `Ensure` after a 200 answer decoded without error: there the trace is
the request `Debug` line, the request, the response `Debug` line and the close
of the body, with no `Error` call. -/
theorem error_return_diagnostics {α : Type} (env : Env) (c : Client) (method path : String)
    (reqData : ReqData) (dec : Decoder α) (respData : Option α) (err : GoError)
    (h : (c.request env method path reqData dec respData).outcome = .returned (some err)) :
    (∃ msg ∈ errorDiagnostics,
        (c.request env method path reqData dec respData).trace.filter Event.isErrorCall
          = [Event.logError msg err]) ∨
      (∃ text req0 resp body,
        env.Marshal reqData = .ok text ∧
        NewRequest env method (c.apiPrefixInForce env ++ path) text = .ok req0 ∧
        env.Do (withContentType req0) = .ok resp ∧ resp.Body = .ok body ∧
        resp.StatusCode = 200 ∧
        (Unmarshal env dec body
          { body := { Code := 0, Message := "",
                      Data := if respData.isSome then .ptr else .nil },
            dest := respData, err := none }).err = none ∧
        env.Ensure
            (Unmarshal env dec body
              { body := { Code := 0, Message := "",
                          Data := if respData.isSome then .ptr else .nil },
                dest := respData, err := none }).body.Code
            (Unmarshal env dec body
              { body := { Code := 0, Message := "",
                          Data := if respData.isSome then .ptr else .nil },
                dest := respData, err := none }).body.Message
          = some err ∧
        (c.request env method path reqData dec respData).trace
          = sendEvents req0 text ++ [.logDebug (resp.Status ++ " " ++ body), .bodyClose] ∧
        (c.request env method path reqData dec respData).trace.filter Event.isErrorCall
          = []) := by
  cases hl : c.logger with
  | none =>
    rw [request_nil_logger env c method path reqData dec respData hl] at h
    simp at h
  | some lg =>
    rcases request_cases env c method path reqData dec respData lg hl with
      ⟨e, _, hr⟩ | ⟨text, e, _, _, hr⟩ | ⟨text, req0, hM, hN, ⟨e, _, hr⟩ |
        ⟨resp, hD, ⟨e, _, hr⟩ | ⟨body, hB, ⟨_, hr⟩ | ⟨hS, st, hU, ⟨e, _, hr⟩ | ⟨he, hr⟩⟩⟩⟩⟩ <;>
      rw [hr] at h ⊢ <;>
      simp only [Outcome.returned.injEq, Option.some.injEq] at h
    · subst h
      exact Or.inl ⟨"json.Marshal() failed: ", by simp [errorDiagnostics],
        by simp [Event.isErrorCall]⟩
    · subst h
      exact Or.inl ⟨"http.NewRequest() failed: ", by simp [errorDiagnostics],
        by simp [Event.isErrorCall]⟩
    · subst h
      exact Or.inl ⟨"c.client.Do() failed: ", by simp [errorDiagnostics],
        by simp [sendEvents, Event.isErrorCall, List.filter]⟩
    · subst h
      exact Or.inl ⟨"ioutil.ReadAll() failed: ", by simp [errorDiagnostics],
        by simp [sendEvents, Event.isErrorCall, List.filter]⟩
    · subst h
      exact Or.inl ⟨"check resp.StatusCode failed: ", by simp [errorDiagnostics],
        by simp [sendEvents, Event.isErrorCall, List.filter]⟩
    · subst h
      exact Or.inl ⟨"json.Unmarshal() failed: ", by simp [errorDiagnostics],
        by simp [sendEvents, Event.isErrorCall, List.filter]⟩
    · subst hU
      exact Or.inr ⟨text, req0, resp, body, hM, hN, hD, hB, hS, he, h, rfl,
        by simp [sendEvents, Event.isErrorCall, List.filter]⟩

/-- C6 (defect of the code): every path on which `request` returns a non-nil
error is to have handed an `Error` diagnostic to the logger first, and the
path of the domain error does not.  Against a service answering 200 with the
envelope `{"code":1,"message":"busy","data":{"Sealing_ID":"sector-1"}}`,
`GetSealing` on a client with a logger returns the non-nil error of `Ensure`
after exactly four events: the `Debug` line of the request, the request, the
`Debug` line of the response, the close of the body; no `Error` call is among
them.  The same call answered with status 500, a sibling error path, does hand
its error to `Error` before returning. -/
theorem domain_error_without_error_call :
    ((demoClient.GetSealing busyEnv "sector-1").outcome
        = .returned (some (.domain "busy" 1 "busy")) ∧
      (demoClient.GetSealing busyEnv "sector-1").trace
        = [.logDebug "GET https://gas.example.org/v1/sector/f01234/sector-1 null",
           .httpDo demoSealingRequest,
           .logDebug ("200 OK " ++ busyBodyText),
           .bodyClose] ∧
      (demoClient.GetSealing busyEnv "sector-1").trace.filter Event.isErrorCall = []) ∧
    ((demoClient.GetSealing failingEnv "sector-1").outcome
        = .returned (some (.errorString "Status not ok: 500")) ∧
      (demoClient.GetSealing failingEnv "sector-1").trace.filter Event.isErrorCall
        = [.logError "check resp.StatusCode failed: " (.errorString "Status not ok: 500")]) := by
  decide

/-! ### Endpoint methods -/

/-- C7: each endpoint method is one call of the envelope handler with the
method and path of its row: `UpdateAction` POST `/v1/sector/action` with the
members `mid`, `sno`, `act`, `actStat`; `CancelSealing` POST `/v1/sector/cancel`
with `mid`, `sno`; `GetSealing` GET `/v1/sector/<miner>/<sealing>` into a fresh
record; `GetUserConfig` GET `/v1/gas/config`; `SetUserConfig` POST
`/v1/gas/config` with the given configuration.  The run of the method, its
error included, is the run of that one call, so that no method hands more than
one request to the transport. -/
theorem endpoints_are_single_request_calls (env : Env) (c : Client)
    (sealingID action actionStatus : String) (u : Option UserConfig) :
    (c.UpdateAction env sealingID action actionStatus
        = c.request env "POST" "/v1/sector/action"
            (.updateAction ⟨c.config.MinerID, sealingID, action, actionStatus⟩) noDecoder none ∧
      (ReqData.updateAction ⟨c.config.MinerID, sealingID, action, actionStatus⟩).stringMembers
        = [("mid", c.config.MinerID), ("sno", sealingID), ("act", action),
           ("actStat", actionStatus)]) ∧
    (c.CancelSealing env sealingID
        = c.request env "POST" "/v1/sector/cancel"
            (.cancel ⟨c.config.MinerID, sealingID⟩) noDecoder none ∧
      (ReqData.cancel ⟨c.config.MinerID, sealingID⟩).stringMembers
        = [("mid", c.config.MinerID), ("sno", sealingID)]) ∧
    c.GetSealing env sealingID
      = c.request env "GET" ("/v1/sector/" ++ c.config.MinerID ++ "/" ++ sealingID) .nil
          sealingDecoder (some zeroSealingData) ∧
    c.GetUserConfig env
      = c.request env "GET" "/v1/gas/config" .nil (userConfigDecoder env)
          (some ⟨⟨0⟩, 0, 0, 0, none⟩) ∧
    c.SetUserConfig env u
      = c.request env "POST" "/v1/gas/config" (.userConfig u) noDecoder none ∧
    ((sentRequests (c.UpdateAction env sealingID action actionStatus).trace).length ≤ 1 ∧
      (sentRequests (c.CancelSealing env sealingID).trace).length ≤ 1 ∧
      (sentRequests (c.GetSealing env sealingID).trace).length ≤ 1 ∧
      (sentRequests (c.GetUserConfig env).trace).length ≤ 1 ∧
      (sentRequests (c.SetUserConfig env u).trace).length ≤ 1) :=
  ⟨⟨rfl, rfl⟩, ⟨rfl, rfl⟩, rfl, rfl, rfl,
    sentRequests_length_le_one env c _ _ _ _ _, sentRequests_length_le_one env c _ _ _ _ _,
    sentRequests_length_le_one env c _ _ _ _ _, sentRequests_length_le_one env c _ _ _ _ _,
    sentRequests_length_le_one env c _ _ _ _ _⟩

/-- C8: `CheckAction` issues a GET on
`/v1/sector/check/<miner>/<sealing>/<action>`, followed by `?time=` and the
base-10 rendering of `t` exactly when `t` is supplied; the rendering reads back
as `t` and starts with a minus sign exactly for negative `t`; without `t` the
path is the bare one, with no question mark unless an argument brings one. -/
theorem CheckAction_path (env : Env) (c : Client) (sealingID action : String)
    (t : Option Int) :
    c.CheckAction env sealingID action t
        = c.request env "GET"
            (match t with
             | none => "/v1/sector/check/" ++ c.config.MinerID ++ "/" ++ sealingID ++ "/" ++ action
             | some v =>
               "/v1/sector/check/" ++ c.config.MinerID ++ "/" ++ sealingID ++ "/" ++ action
                 ++ "?time=" ++ FormatInt v)
            .nil checkActionDecoder (some ⟨false, 0⟩) ∧
      (checkActionPath c sealingID action t
          = "/v1/sector/check/" ++ c.config.MinerID ++ "/" ++ sealingID ++ "/" ++ action
        ↔ t = none) ∧
      (∀ v : Int,
        parseIntLit (FormatInt v) = some v ∧
          (v < 0 → FormatInt v = "-" ++ Nat.repr v.natAbs) ∧
          (0 ≤ v → FormatInt v = Nat.repr v.natAbs)) ∧
      ('?' ∉ c.config.MinerID.data → '?' ∉ sealingID.data → '?' ∉ action.data →
        '?' ∉ (checkActionPath c sealingID action none).data) := by
  refine ⟨?_, ?_, ?_, ?_⟩
  · cases t <;> rfl
  · constructor
    · intro h
      cases t with
      | none => rfl
      | some v =>
        have hlen := congrArg String.length h
        simp only [checkActionPath, String.length_append] at hlen
        have h6 : "?time=".length = 6 := by decide
        omega
    · rintro rfl
      rfl
  · intro v
    refine ⟨parseIntLit_FormatInt v, ?_, ?_⟩
    · intro hv
      simp [FormatInt, hv]
    · intro hv
      simp [FormatInt, not_lt.mpr hv]
  · intro hm hs ha
    have h0 : '?' ∉ ("/v1/sector/check/" : String).data := by decide
    have h1 : '?' ∉ ("/" : String).data := by decide
    exact data_not_mem_append _ _ _
      (data_not_mem_append _ _ _ (data_not_mem_append _ _ _ (data_not_mem_append _ _ _ h0 hm) h1) hs)
      h1 |> fun h => data_not_mem_append _ _ _ h ha

/-! ### Logger levels -/

/-- C9: with the levels ordered debug < info < warn < error, an emission at
level `lvl` on a logger whose minimum output level is above `lvl` leaves the
destination stream untouched; otherwise it appends one line: the 26 characters
of the timestamp `YYYY/MM/DD HH:MM:SS.ffffff`, then
` [LEVEL] <path>:<line>: <message>` and a line feed, with the tag of `lvl` and
the call site of the emission.  With the level set to warn, `Debug` and `Info`
leave the buffer empty and `Warn("test")` from line 77 of `logext_test.go`
appends ` [WARN] <cwd>/logext_test.go:77: test` and a line feed after the timestamp. -/
theorem Log.emit_respects_level (l : Log.Logger) (lvl : Log.Level) (now : Log.Time)
    (site : Log.CallSite) (msg cwd : String) :
    (Log.Level.Ldebug.rank < Log.Level.Linfo.rank ∧
      Log.Level.Linfo.rank < Log.Level.Lwarn.rank ∧
      Log.Level.Lwarn.rank < Log.Level.Lerror.rank) ∧
    (lvl.rank < l.Level.rank → (l.emit lvl now site msg).out = l.out) ∧
    (l.Level.rank ≤ lvl.rank →
      (l.emit lvl now site msg).out
        = l.out ++ now.render ++
            (" [" ++ lvl.tag ++ "] " ++ site.path ++ ":" ++ Nat.repr site.line ++ ": " ++ msg
              ++ "\n").data) ∧
    (now.render.length = 26 ∧ Log.isTimestamp now.render = true) ∧
    (((Log.New []).SetOutputLevel .Lwarn).Level = .Lwarn ∧
      (((Log.New []).SetOutputLevel .Lwarn).Debug now
          ⟨cwd ++ "/logext_test.go", 73⟩ "test").out = [] ∧
      ((((Log.New []).SetOutputLevel .Lwarn).Debug now
          ⟨cwd ++ "/logext_test.go", 73⟩ "test").Info now
          ⟨cwd ++ "/logext_test.go", 75⟩ "test").out = [] ∧
      (((((Log.New []).SetOutputLevel .Lwarn).Debug now
          ⟨cwd ++ "/logext_test.go", 73⟩ "test").Info now
          ⟨cwd ++ "/logext_test.go", 75⟩ "test").Warn now
          ⟨cwd ++ "/logext_test.go", 77⟩ "test").out
        = now.render ++ (" [WARN] " ++ cwd ++ "/logext_test.go:77: test\n").data) := by
  refine ⟨by decide, ?_, ?_, ⟨?_, Log.render_isTimestamp now⟩, rfl, rfl, rfl, ?_⟩
  · intro h
    simp [Log.Logger.emit, h]
  · intro h
    simp [Log.Logger.emit, Nat.not_lt.mpr h, Log.lineTail]
  · simp [Log.Time.render, Log.pad_length]
  · have h77 : Nat.repr 77 = "77" := by decide
    simp [Log.Logger.Debug, Log.Logger.Info, Log.Logger.Warn, Log.Logger.emit, Log.New,
      Log.Logger.SetOutputLevel, Log.Level.rank, Log.lineTail, Log.Level.tag, h77,
      String.data_append]

/-! ### The nil logger -/

/-- C10: a client returned by `NewClient` has the nil logger, and only
`SetLogger` gives it one; every execution of
`request` starts with a call on the client's logger (it panics there when the
logger is nil; otherwise the first event is `Error` on an early failure, which
ends the call, or `Debug`), so a logger call precedes any request handed to the
transport; and for a client fresh from `NewClient` every endpoint method panics
without reaching the transport. -/
theorem logger_called_before_transport :
    (∀ cfg : Config, (NewClient cfg).logger = none) ∧
    (∀ (cfg : Config) (lg : Logger), ((NewClient cfg).SetLogger lg).logger = some lg) ∧
    (∀ (α : Type) (env : Env) (c : Client) (method path : String) (reqData : ReqData)
        (dec : Decoder α) (respData : Option α),
      (c.logger = none ∧
          (c.request env method path reqData dec respData).outcome = .panicked ∧
          (c.request env method path reqData dec respData).trace = []) ∨
        (c.logger ≠ none ∧
          (c.request env method path reqData dec respData).outcome ≠ .panicked ∧
          ∃ ev rest, (c.request env method path reqData dec respData).trace = ev :: rest ∧
            ((∃ msg err, ev = .logError msg err ∧ rest = []) ∨ (∃ msg, ev = .logDebug msg)))) ∧
    (∀ (env : Env) (cfg : Config) (sealingID action actionStatus : String) (t : Option Int)
        (u : Option UserConfig),
      ((NewClient cfg).UpdateAction env sealingID action actionStatus).outcome = .panicked ∧
      sentRequests ((NewClient cfg).UpdateAction env sealingID action actionStatus).trace = [] ∧
      ((NewClient cfg).GetSealing env sealingID).outcome = .panicked ∧
      sentRequests ((NewClient cfg).GetSealing env sealingID).trace = [] ∧
      ((NewClient cfg).CancelSealing env sealingID).outcome = .panicked ∧
      sentRequests ((NewClient cfg).CancelSealing env sealingID).trace = [] ∧
      ((NewClient cfg).CheckAction env sealingID action t).outcome = .panicked ∧
      sentRequests ((NewClient cfg).CheckAction env sealingID action t).trace = [] ∧
      ((NewClient cfg).GetUserConfig env).outcome = .panicked ∧
      sentRequests ((NewClient cfg).GetUserConfig env).trace = [] ∧
      ((NewClient cfg).SetUserConfig env u).outcome = .panicked ∧
      sentRequests ((NewClient cfg).SetUserConfig env u).trace = []) := by
  refine ⟨fun _ => rfl, fun _ _ => rfl, ?_, ?_⟩
  · intro α env c method path reqData dec respData
    cases hl : c.logger with
    | none =>
      left
      rw [request_nil_logger env c method path reqData dec respData hl]
      exact ⟨rfl, rfl, rfl⟩
    | some lg =>
      right
      refine ⟨by simp, ?_⟩
      rcases request_cases env c method path reqData dec respData lg hl with
        ⟨err, _, h⟩ | ⟨text, err, _, _, h⟩ | ⟨text, req0, _, _, ⟨err, _, h⟩ |
          ⟨resp, _, ⟨err, _, h⟩ | ⟨body, _, ⟨_, h⟩ | ⟨_, st, _, ⟨err, _, h⟩ | ⟨_, h⟩⟩⟩⟩⟩ <;>
        rw [h] <;> refine ⟨by simp, ?_⟩ <;>
        first
          | exact ⟨_, _, rfl, Or.inl ⟨_, _, rfl, rfl⟩⟩
          | exact ⟨_, _, rfl, Or.inr ⟨_, rfl⟩⟩
  · intro env cfg sealingID action actionStatus t u
    simp [Client.UpdateAction, Client.GetSealing, Client.CancelSealing, Client.CheckAction,
      Client.GetUserConfig, Client.SetUserConfig, request_nil_logger, NewClient, sentRequests]

end Gas
